import Mathlib

/-!
# OpenThread public types (`include/openthread/types.h`)

A shallow embedding of the data contracts declared by the header: the
enumerations become inductive types together with the function giving each
member its numeric code, the `#define` constants become natural numbers, and
the structures become Lean structures whose members have the width the C
declaration gives them.

Fixed-width unsigned integers are natural numbers below `2 ^ w`; a C array
`T m8[N]` is a list of exactly `N` elements.
-/

namespace OpenThread

/-! ## Machine types -/

/-- The C type `uint8_t`: a natural number below `2 ^ 8`. -/
abbrev uint8_t : Type := Fin (2 ^ 8)

/-- The C type `uint16_t`: a natural number below `2 ^ 16`. -/
abbrev uint16_t : Type := Fin (2 ^ 16)

/-- The C type `uint32_t`: a natural number below `2 ^ 32`. -/
abbrev uint32_t : Type := Fin (2 ^ 32)

/-- The C type `uint64_t`: a natural number below `2 ^ 64`. -/
abbrev uint64_t : Type := Fin (2 ^ 64)

/-- The C type `char` seen as a byte. -/
abbrev char : Type := Fin (2 ^ 8)

/-- A C array `T a[n]`: exactly `n` elements of type `T`. -/
abbrev CArray (α : Type) (n : Nat) : Type := { l : List α // l.length = n }

/-- The array all of whose `n` elements are `a`. -/
def CArray.fill {α : Type} (n : Nat) (a : α) : CArray α n :=
  ⟨List.replicate n a, List.length_replicate n a⟩

/-! ## `ThreadError` -/

/-- The enumeration `ThreadError` (types.h, lines 97-197). -/
inductive ThreadError where
  | kThreadError_None
  | kThreadError_Failed
  | kThreadError_Drop
  | kThreadError_NoBufs
  | kThreadError_NoRoute
  | kThreadError_Busy
  | kThreadError_Parse
  | kThreadError_InvalidArgs
  | kThreadError_Security
  | kThreadError_AddressQuery
  | kThreadError_NoAddress
  | kThreadError_NotReceiving
  | kThreadError_Abort
  | kThreadError_NotImplemented
  | kThreadError_InvalidState
  | kThreadError_NoTasklets
  | kThreadError_NoAck
  | kThreadError_ChannelAccessFailure
  | kThreadError_Detached
  | kThreadError_FcsErr
  | kThreadError_NoFrameReceived
  | kThreadError_UnknownNeighbor
  | kThreadError_InvalidSourceAddress
  | kThreadError_WhitelistFiltered
  | kThreadError_DestinationAddressFiltered
  | kThreadError_NotFound
  | kThreadError_Already
  | kThreadError_BlacklistFiltered
  | kThreadError_Ipv6AddressCreationFailure
  | kThreadError_NotCapable
  | kThreadError_ResponseTimeout
  | kThreadError_Duplicated
  | kThreadError_Error
  deriving DecidableEq, Repr

namespace ThreadError

/-- The numeric value the header assigns to each member of `ThreadError`. -/
def toNat : ThreadError → Nat
  | kThreadError_None => 0
  | kThreadError_Failed => 1
  | kThreadError_Drop => 2
  | kThreadError_NoBufs => 3
  | kThreadError_NoRoute => 4
  | kThreadError_Busy => 5
  | kThreadError_Parse => 6
  | kThreadError_InvalidArgs => 7
  | kThreadError_Security => 8
  | kThreadError_AddressQuery => 9
  | kThreadError_NoAddress => 10
  | kThreadError_NotReceiving => 11
  | kThreadError_Abort => 12
  | kThreadError_NotImplemented => 13
  | kThreadError_InvalidState => 14
  | kThreadError_NoTasklets => 15
  | kThreadError_NoAck => 16
  | kThreadError_ChannelAccessFailure => 17
  | kThreadError_Detached => 18
  | kThreadError_FcsErr => 19
  | kThreadError_NoFrameReceived => 20
  | kThreadError_UnknownNeighbor => 21
  | kThreadError_InvalidSourceAddress => 22
  | kThreadError_WhitelistFiltered => 23
  | kThreadError_DestinationAddressFiltered => 24
  | kThreadError_NotFound => 25
  | kThreadError_Already => 26
  | kThreadError_BlacklistFiltered => 27
  | kThreadError_Ipv6AddressCreationFailure => 28
  | kThreadError_NotCapable => 29
  | kThreadError_ResponseTimeout => 30
  | kThreadError_Duplicated => 31
  | kThreadError_Error => 255

/-- Every member of `ThreadError`, in declaration order. -/
def members : List ThreadError :=
  [kThreadError_None, kThreadError_Failed, kThreadError_Drop, kThreadError_NoBufs,
   kThreadError_NoRoute, kThreadError_Busy, kThreadError_Parse, kThreadError_InvalidArgs,
   kThreadError_Security, kThreadError_AddressQuery, kThreadError_NoAddress,
   kThreadError_NotReceiving, kThreadError_Abort, kThreadError_NotImplemented,
   kThreadError_InvalidState, kThreadError_NoTasklets, kThreadError_NoAck,
   kThreadError_ChannelAccessFailure, kThreadError_Detached, kThreadError_FcsErr,
   kThreadError_NoFrameReceived, kThreadError_UnknownNeighbor,
   kThreadError_InvalidSourceAddress, kThreadError_WhitelistFiltered,
   kThreadError_DestinationAddressFiltered, kThreadError_NotFound, kThreadError_Already,
   kThreadError_BlacklistFiltered, kThreadError_Ipv6AddressCreationFailure,
   kThreadError_NotCapable, kThreadError_ResponseTimeout, kThreadError_Duplicated,
   kThreadError_Error]

/-- The error codes that section 6 of the specification lists as surfaced to
callers, in the order of that list. This list follows the specification's
words; `members` is the enumeration of the header. -/
def specSurfaced : List ThreadError :=
  [kThreadError_Drop, kThreadError_NoBufs, kThreadError_NoRoute, kThreadError_Busy,
   kThreadError_Parse, kThreadError_InvalidArgs, kThreadError_Security,
   kThreadError_AddressQuery, kThreadError_NoAddress, kThreadError_Abort,
   kThreadError_InvalidState, kThreadError_NoAck, kThreadError_ChannelAccessFailure,
   kThreadError_Detached, kThreadError_FcsErr, kThreadError_NoFrameReceived,
   kThreadError_UnknownNeighbor, kThreadError_InvalidSourceAddress, kThreadError_NotFound,
   kThreadError_Already, kThreadError_Ipv6AddressCreationFailure, kThreadError_NotCapable,
   kThreadError_ResponseTimeout, kThreadError_Duplicated]

/-- The failure codes of the header that the specification's list leaves out. -/
def unlistedFailures : List ThreadError :=
  [kThreadError_Failed, kThreadError_NotReceiving, kThreadError_NotImplemented,
   kThreadError_NoTasklets, kThreadError_WhitelistFiltered,
   kThreadError_DestinationAddressFiltered, kThreadError_BlacklistFiltered,
   kThreadError_Error]

end ThreadError

/-! ## Sizes of the TLV-carried values -/

/-- The constant `OT_MASTER_KEY_SIZE`: size of the Thread Master Key (bytes). -/
def OT_MASTER_KEY_SIZE : Nat := 16

/-- The structure `otMasterKey`. -/
structure otMasterKey where
  m8 : CArray uint8_t OT_MASTER_KEY_SIZE
  deriving DecidableEq

/-- The constant `OT_NETWORK_NAME_MAX_SIZE`: maximum size of the network name (bytes). -/
def OT_NETWORK_NAME_MAX_SIZE : Nat := 16

/-- The structure `otNetworkName`. -/
structure otNetworkName where
  m8 : CArray char (OT_NETWORK_NAME_MAX_SIZE + 1)
  deriving DecidableEq

/-- The constant `OT_EXT_PAN_ID_SIZE`: size of a Thread extended PAN id (bytes). -/
def OT_EXT_PAN_ID_SIZE : Nat := 8

/-- The structure `otExtendedPanId`. -/
structure otExtendedPanId where
  m8 : CArray uint8_t OT_EXT_PAN_ID_SIZE
  deriving DecidableEq

/-- The constant `OT_MESH_LOCAL_PREFIX_SIZE`: size of the mesh-local prefix (bytes). -/
def OT_MESH_LOCAL_PREFIX_SIZE : Nat := 8

/-- The structure `otMeshLocalPrefix`. -/
structure otMeshLocalPrefix where
  m8 : CArray uint8_t OT_MESH_LOCAL_PREFIX_SIZE
  deriving DecidableEq

/-- The constant `OT_PSKC_MAX_SIZE`: maximum size of the PSKc (bytes). -/
def OT_PSKC_MAX_SIZE : Nat := 16

/-- The structure `otPSKc`. -/
structure otPSKc where
  m8 : CArray uint8_t OT_PSKC_MAX_SIZE
  deriving DecidableEq

/-- The structure `otSecurityPolicy`. -/
structure otSecurityPolicy where
  mRotationTime : uint16_t
  mFlags : uint8_t
  deriving DecidableEq

/-- The type `otChannelMaskPage0`. -/
abbrev otChannelMaskPage0 : Type := uint32_t

/-- The type `otPanId`. -/
abbrev otPanId : Type := uint16_t

/-- The constant `OT_STEERING_DATA_MAX_LENGTH`: maximum steering data length (bytes). -/
def OT_STEERING_DATA_MAX_LENGTH : Nat := 16

/-- The structure `otSteeringData`. -/
structure otSteeringData where
  mLength : uint8_t
  m8 : CArray uint8_t OT_STEERING_DATA_MAX_LENGTH
  deriving DecidableEq

/-- Modelled from the spec: the length field of the TLV wire format is one byte
(section 6); the header does not declare it. This is the largest value such a
field carries. -/
def tlvLengthMax : Nat := 2 ^ 8 - 1

/-! ## `otMeshcopTlvType` -/

/-- The enumeration `otMeshcopTlvType` (types.h, lines 505-543). -/
inductive otMeshcopTlvType where
  | OT_MESHCOP_TLV_CHANNEL
  | OT_MESHCOP_TLV_PANID
  | OT_MESHCOP_TLV_EXTPANID
  | OT_MESHCOP_TLV_NETWORKNAME
  | OT_MESHCOP_TLV_PSKC
  | OT_MESHCOP_TLV_MASTERKEY
  | OT_MESHCOP_TLV_NETWORK_KEY_SEQUENCE
  | OT_MESHCOP_TLV_MESHLOCALPREFIX
  | OT_MESHCOP_TLV_STEERING_DATA
  | OT_MESHCOP_TLV_BORDER_AGENT_RLOC
  | OT_MESHCOP_TLV_COMMISSIONER_ID
  | OT_MESHCOP_TLV_COMM_SESSION_ID
  | OT_MESHCOP_TLV_SECURITYPOLICY
  | OT_MESHCOP_TLV_GET
  | OT_MESHCOP_TLV_ACTIVETIMESTAMP
  | OT_MESHCOP_TLV_STATE
  | OT_MESHCOP_TLV_JOINER_DTLS
  | OT_MESHCOP_TLV_JOINER_UDP_PORT
  | OT_MESHCOP_TLV_JOINER_IID
  | OT_MESHCOP_TLV_JOINER_RLOC
  | OT_MESHCOP_TLV_JOINER_ROUTER_KEK
  | OT_MESHCOP_TLV_PROVISIONING_URL
  | OT_MESHCOP_TLV_VENDOR_NAME_TLV
  | OT_MESHCOP_TLV_VENDOR_MODEL_TLV
  | OT_MESHCOP_TLV_VENDOR_SW_VERSION_TLV
  | OT_MESHCOP_TLV_VENDOR_DATA_TLV
  | OT_MESHCOP_TLV_VENDOR_STACK_VERSION_TLV
  | OT_MESHCOP_TLV_PENDINGTIMESTAMP
  | OT_MESHCOP_TLV_DELAYTIMER
  | OT_MESHCOP_TLV_CHANNELMASK
  | OT_MESHCOP_TLV_COUNT
  | OT_MESHCOP_TLV_PERIOD
  | OT_MESHCOP_TLV_SCAN_DURATION
  | OT_MESHCOP_TLV_ENERGY_LIST
  | OT_MESHCOP_TLV_DISCOVERYREQUEST
  | OT_MESHCOP_TLV_DISCOVERYRESPONSE
  deriving DecidableEq, Repr

namespace otMeshcopTlvType

/-- The numeric code the header assigns to each meshcop TLV type. -/
def toNat : otMeshcopTlvType → Nat
  | OT_MESHCOP_TLV_CHANNEL => 0
  | OT_MESHCOP_TLV_PANID => 1
  | OT_MESHCOP_TLV_EXTPANID => 2
  | OT_MESHCOP_TLV_NETWORKNAME => 3
  | OT_MESHCOP_TLV_PSKC => 4
  | OT_MESHCOP_TLV_MASTERKEY => 5
  | OT_MESHCOP_TLV_NETWORK_KEY_SEQUENCE => 6
  | OT_MESHCOP_TLV_MESHLOCALPREFIX => 7
  | OT_MESHCOP_TLV_STEERING_DATA => 8
  | OT_MESHCOP_TLV_BORDER_AGENT_RLOC => 9
  | OT_MESHCOP_TLV_COMMISSIONER_ID => 10
  | OT_MESHCOP_TLV_COMM_SESSION_ID => 11
  | OT_MESHCOP_TLV_SECURITYPOLICY => 12
  | OT_MESHCOP_TLV_GET => 13
  | OT_MESHCOP_TLV_ACTIVETIMESTAMP => 14
  | OT_MESHCOP_TLV_STATE => 16
  | OT_MESHCOP_TLV_JOINER_DTLS => 17
  | OT_MESHCOP_TLV_JOINER_UDP_PORT => 18
  | OT_MESHCOP_TLV_JOINER_IID => 19
  | OT_MESHCOP_TLV_JOINER_RLOC => 20
  | OT_MESHCOP_TLV_JOINER_ROUTER_KEK => 21
  | OT_MESHCOP_TLV_PROVISIONING_URL => 32
  | OT_MESHCOP_TLV_VENDOR_NAME_TLV => 33
  | OT_MESHCOP_TLV_VENDOR_MODEL_TLV => 34
  | OT_MESHCOP_TLV_VENDOR_SW_VERSION_TLV => 35
  | OT_MESHCOP_TLV_VENDOR_DATA_TLV => 36
  | OT_MESHCOP_TLV_VENDOR_STACK_VERSION_TLV => 37
  | OT_MESHCOP_TLV_PENDINGTIMESTAMP => 51
  | OT_MESHCOP_TLV_DELAYTIMER => 52
  | OT_MESHCOP_TLV_CHANNELMASK => 53
  | OT_MESHCOP_TLV_COUNT => 54
  | OT_MESHCOP_TLV_PERIOD => 55
  | OT_MESHCOP_TLV_SCAN_DURATION => 56
  | OT_MESHCOP_TLV_ENERGY_LIST => 57
  | OT_MESHCOP_TLV_DISCOVERYREQUEST => 128
  | OT_MESHCOP_TLV_DISCOVERYRESPONSE => 129

/-- Every member of `otMeshcopTlvType`, in declaration order. -/
def members : List otMeshcopTlvType :=
  [OT_MESHCOP_TLV_CHANNEL, OT_MESHCOP_TLV_PANID, OT_MESHCOP_TLV_EXTPANID,
   OT_MESHCOP_TLV_NETWORKNAME, OT_MESHCOP_TLV_PSKC, OT_MESHCOP_TLV_MASTERKEY,
   OT_MESHCOP_TLV_NETWORK_KEY_SEQUENCE, OT_MESHCOP_TLV_MESHLOCALPREFIX,
   OT_MESHCOP_TLV_STEERING_DATA, OT_MESHCOP_TLV_BORDER_AGENT_RLOC,
   OT_MESHCOP_TLV_COMMISSIONER_ID, OT_MESHCOP_TLV_COMM_SESSION_ID,
   OT_MESHCOP_TLV_SECURITYPOLICY, OT_MESHCOP_TLV_GET, OT_MESHCOP_TLV_ACTIVETIMESTAMP,
   OT_MESHCOP_TLV_STATE, OT_MESHCOP_TLV_JOINER_DTLS, OT_MESHCOP_TLV_JOINER_UDP_PORT,
   OT_MESHCOP_TLV_JOINER_IID, OT_MESHCOP_TLV_JOINER_RLOC, OT_MESHCOP_TLV_JOINER_ROUTER_KEK,
   OT_MESHCOP_TLV_PROVISIONING_URL, OT_MESHCOP_TLV_VENDOR_NAME_TLV,
   OT_MESHCOP_TLV_VENDOR_MODEL_TLV, OT_MESHCOP_TLV_VENDOR_SW_VERSION_TLV,
   OT_MESHCOP_TLV_VENDOR_DATA_TLV, OT_MESHCOP_TLV_VENDOR_STACK_VERSION_TLV,
   OT_MESHCOP_TLV_PENDINGTIMESTAMP, OT_MESHCOP_TLV_DELAYTIMER, OT_MESHCOP_TLV_CHANNELMASK,
   OT_MESHCOP_TLV_COUNT, OT_MESHCOP_TLV_PERIOD, OT_MESHCOP_TLV_SCAN_DURATION,
   OT_MESHCOP_TLV_ENERGY_LIST, OT_MESHCOP_TLV_DISCOVERYREQUEST,
   OT_MESHCOP_TLV_DISCOVERYRESPONSE]

/-- The member with a given code, when the header declares one. -/
def ofNat? (n : Nat) : Option otMeshcopTlvType :=
  members.find? (fun t => t.toNat == n)

/-- The dataset fields that section 4.2 of the specification lists as TLV keys,
each with the member of the enumeration that stands for it, in the order of
the specification's list. This list follows the specification's words. -/
def specKeys : List otMeshcopTlvType :=
  [OT_MESHCOP_TLV_CHANNEL, OT_MESHCOP_TLV_PANID, OT_MESHCOP_TLV_EXTPANID,
   OT_MESHCOP_TLV_NETWORKNAME, OT_MESHCOP_TLV_PSKC, OT_MESHCOP_TLV_MASTERKEY,
   OT_MESHCOP_TLV_MESHLOCALPREFIX, OT_MESHCOP_TLV_STEERING_DATA,
   OT_MESHCOP_TLV_SECURITYPOLICY, OT_MESHCOP_TLV_ACTIVETIMESTAMP,
   OT_MESHCOP_TLV_PENDINGTIMESTAMP, OT_MESHCOP_TLV_DELAYTIMER, OT_MESHCOP_TLV_CHANNELMASK,
   OT_MESHCOP_TLV_BORDER_AGENT_RLOC, OT_MESHCOP_TLV_COMM_SESSION_ID,
   OT_MESHCOP_TLV_JOINER_UDP_PORT]

end otMeshcopTlvType

/-! ## Change-notification flags -/

/-- The anonymous enumeration of flags "that indicate what configuration or
state has changed" (types.h, lines 576-594). -/
inductive otChangedFlag where
  | OT_IP6_ADDRESS_ADDED
  | OT_IP6_ADDRESS_REMOVED
  | OT_NET_ROLE
  | OT_NET_PARTITION_ID
  | OT_NET_KEY_SEQUENCE_COUNTER
  | OT_THREAD_CHILD_ADDED
  | OT_THREAD_CHILD_REMOVED
  | OT_THREAD_NETDATA_UPDATED
  | OT_IP6_LL_ADDR_CHANGED
  | OT_IP6_ML_ADDR_CHANGED
  | OT_IP6_RLOC_ADDED
  | OT_IP6_RLOC_REMOVED
  deriving DecidableEq, Repr

namespace otChangedFlag

/-- The value the header gives each change flag. -/
def toNat : otChangedFlag → Nat
  | OT_IP6_ADDRESS_ADDED => 1 <<< 0
  | OT_IP6_ADDRESS_REMOVED => 1 <<< 1
  | OT_NET_ROLE => 1 <<< 3
  | OT_NET_PARTITION_ID => 1 <<< 4
  | OT_NET_KEY_SEQUENCE_COUNTER => 1 <<< 5
  | OT_THREAD_CHILD_ADDED => 1 <<< 6
  | OT_THREAD_CHILD_REMOVED => 1 <<< 7
  | OT_THREAD_NETDATA_UPDATED => 1 <<< 8
  | OT_IP6_LL_ADDR_CHANGED => 1 <<< 9
  | OT_IP6_ML_ADDR_CHANGED => 1 <<< 10
  | OT_IP6_RLOC_ADDED => 1 <<< 11
  | OT_IP6_RLOC_REMOVED => 1 <<< 12

/-- Every change flag, in declaration order. -/
def members : List otChangedFlag :=
  [OT_IP6_ADDRESS_ADDED, OT_IP6_ADDRESS_REMOVED, OT_NET_ROLE, OT_NET_PARTITION_ID,
   OT_NET_KEY_SEQUENCE_COUNTER, OT_THREAD_CHILD_ADDED, OT_THREAD_CHILD_REMOVED,
   OT_THREAD_NETDATA_UPDATED, OT_IP6_LL_ADDR_CHANGED, OT_IP6_ML_ADDR_CHANGED,
   OT_IP6_RLOC_ADDED, OT_IP6_RLOC_REMOVED]

/-- The shift amount in the header's definition `1 << k` of each flag. -/
def bitIndex : otChangedFlag → Nat
  | OT_IP6_ADDRESS_ADDED => 0
  | OT_IP6_ADDRESS_REMOVED => 1
  | OT_NET_ROLE => 3
  | OT_NET_PARTITION_ID => 4
  | OT_NET_KEY_SEQUENCE_COUNTER => 5
  | OT_THREAD_CHILD_ADDED => 6
  | OT_THREAD_CHILD_REMOVED => 7
  | OT_THREAD_NETDATA_UPDATED => 8
  | OT_IP6_LL_ADDR_CHANGED => 9
  | OT_IP6_ML_ADDR_CHANGED => 10
  | OT_IP6_RLOC_ADDED => 11
  | OT_IP6_RLOC_REMOVED => 12

/-- The bitwise OR of the flags of a set: the notification word in which
exactly the flags of `S` are raised. -/
def orMask (S : Finset otChangedFlag) : Nat :=
  members.foldl (fun acc f => if f ∈ S then acc ||| f.toNat else acc) 0

/-- The set of flags that are raised in a notification word `w`: those whose
bit is set in it (the test `w & flag` of C). -/
def raised (w : Nat) : Finset otChangedFlag :=
  (members.filter (fun f => w &&& f.toNat != 0)).toFinset

end otChangedFlag

/-! ## Datasets -/

/-- The structure `otOperationalDataset` (types.h, lines 455-482): an Active or Pending Operational
Dataset. A `bool : 1`
bit-field is a `Bool`. -/
structure otOperationalDataset where
  mActiveTimestamp : uint64_t
  mPendingTimestamp : uint64_t
  mMasterKey : otMasterKey
  mNetworkName : otNetworkName
  mExtendedPanId : otExtendedPanId
  mMeshLocalPrefix : otMeshLocalPrefix
  mDelay : uint32_t
  mPanId : otPanId
  mChannel : uint16_t
  mPSKc : otPSKc
  mSecurityPolicy : otSecurityPolicy
  mChannelMaskPage0 : otChannelMaskPage0
  mIsActiveTimestampSet : Bool
  mIsPendingTimestampSet : Bool
  mIsMasterKeySet : Bool
  mIsNetworkNameSet : Bool
  mIsExtendedPanIdSet : Bool
  mIsMeshLocalPrefixSet : Bool
  mIsDelaySet : Bool
  mIsPanIdSet : Bool
  mIsChannelSet : Bool
  mIsPSKcSet : Bool
  mIsSecurityPolicySet : Bool
  mIsChannelMaskPage0Set : Bool
  deriving DecidableEq

namespace otOperationalDataset

/-- The value members of `otOperationalDataset`, named as in the header. -/
inductive Field where
  | mActiveTimestamp
  | mPendingTimestamp
  | mMasterKey
  | mNetworkName
  | mExtendedPanId
  | mMeshLocalPrefix
  | mDelay
  | mPanId
  | mChannel
  | mPSKc
  | mSecurityPolicy
  | mChannelMaskPage0
  deriving DecidableEq, Repr, Fintype

/-- Every value member, in declaration order. -/
def Field.members : List Field :=
  [.mActiveTimestamp, .mPendingTimestamp, .mMasterKey, .mNetworkName, .mExtendedPanId, .mMeshLocalPrefix, .mDelay, .mPanId, .mChannel, .mPSKc, .mSecurityPolicy, .mChannelMaskPage0]

/-- The declared type of each value member. -/
def Field.Value : Field → Type
  | .mActiveTimestamp => uint64_t
  | .mPendingTimestamp => uint64_t
  | .mMasterKey => otMasterKey
  | .mNetworkName => otNetworkName
  | .mExtendedPanId => otExtendedPanId
  | .mMeshLocalPrefix => otMeshLocalPrefix
  | .mDelay => uint32_t
  | .mPanId => otPanId
  | .mChannel => uint16_t
  | .mPSKc => otPSKc
  | .mSecurityPolicy => otSecurityPolicy
  | .mChannelMaskPage0 => otChannelMaskPage0

/-- The value stored in a value member. -/
def value (d : otOperationalDataset) : (f : Field) → f.Value
  | .mActiveTimestamp => d.mActiveTimestamp
  | .mPendingTimestamp => d.mPendingTimestamp
  | .mMasterKey => d.mMasterKey
  | .mNetworkName => d.mNetworkName
  | .mExtendedPanId => d.mExtendedPanId
  | .mMeshLocalPrefix => d.mMeshLocalPrefix
  | .mDelay => d.mDelay
  | .mPanId => d.mPanId
  | .mChannel => d.mChannel
  | .mPSKc => d.mPSKc
  | .mSecurityPolicy => d.mSecurityPolicy
  | .mChannelMaskPage0 => d.mChannelMaskPage0

/-- The presence flag the header pairs with a value member: member `mX` is
paired with the bit-field `mIsXSet`. -/
def isSet (d : otOperationalDataset) : Field → Bool
  | .mActiveTimestamp => d.mIsActiveTimestampSet
  | .mPendingTimestamp => d.mIsPendingTimestampSet
  | .mMasterKey => d.mIsMasterKeySet
  | .mNetworkName => d.mIsNetworkNameSet
  | .mExtendedPanId => d.mIsExtendedPanIdSet
  | .mMeshLocalPrefix => d.mIsMeshLocalPrefixSet
  | .mDelay => d.mIsDelaySet
  | .mPanId => d.mIsPanIdSet
  | .mChannel => d.mIsChannelSet
  | .mPSKc => d.mIsPSKcSet
  | .mSecurityPolicy => d.mIsSecurityPolicySet
  | .mChannelMaskPage0 => d.mIsChannelMaskPage0Set

/-- The structure value with the given value members and presence flags. -/
def ofParts (v : (f : Field) → f.Value) (p : Field → Bool) : otOperationalDataset where
  mActiveTimestamp := v .mActiveTimestamp
  mPendingTimestamp := v .mPendingTimestamp
  mMasterKey := v .mMasterKey
  mNetworkName := v .mNetworkName
  mExtendedPanId := v .mExtendedPanId
  mMeshLocalPrefix := v .mMeshLocalPrefix
  mDelay := v .mDelay
  mPanId := v .mPanId
  mChannel := v .mChannel
  mPSKc := v .mPSKc
  mSecurityPolicy := v .mSecurityPolicy
  mChannelMaskPage0 := v .mChannelMaskPage0
  mIsActiveTimestampSet := p .mActiveTimestamp
  mIsPendingTimestampSet := p .mPendingTimestamp
  mIsMasterKeySet := p .mMasterKey
  mIsNetworkNameSet := p .mNetworkName
  mIsExtendedPanIdSet := p .mExtendedPanId
  mIsMeshLocalPrefixSet := p .mMeshLocalPrefix
  mIsDelaySet := p .mDelay
  mIsPanIdSet := p .mPanId
  mIsChannelSet := p .mChannel
  mIsPSKcSet := p .mPSKc
  mIsSecurityPolicySet := p .mSecurityPolicy
  mIsChannelMaskPage0Set := p .mChannelMaskPage0

end otOperationalDataset

/-- The structure `otCommissioningDataset` (types.h, lines 488-499): a Commissioning Dataset. A `bool : 1`
bit-field is a `Bool`. -/
structure otCommissioningDataset where
  mLocator : uint16_t
  mSessionId : uint16_t
  mSteeringData : otSteeringData
  mJoinerUdpPort : uint16_t
  mIsLocatorSet : Bool
  mIsSessionIdSet : Bool
  mIsSteeringDataSet : Bool
  mIsJoinerUdpPortSet : Bool
  deriving DecidableEq

namespace otCommissioningDataset

/-- The value members of `otCommissioningDataset`, named as in the header. -/
inductive Field where
  | mLocator
  | mSessionId
  | mSteeringData
  | mJoinerUdpPort
  deriving DecidableEq, Repr, Fintype

/-- Every value member, in declaration order. -/
def Field.members : List Field :=
  [.mLocator, .mSessionId, .mSteeringData, .mJoinerUdpPort]

/-- The declared type of each value member. -/
def Field.Value : Field → Type
  | .mLocator => uint16_t
  | .mSessionId => uint16_t
  | .mSteeringData => otSteeringData
  | .mJoinerUdpPort => uint16_t

/-- The value stored in a value member. -/
def value (d : otCommissioningDataset) : (f : Field) → f.Value
  | .mLocator => d.mLocator
  | .mSessionId => d.mSessionId
  | .mSteeringData => d.mSteeringData
  | .mJoinerUdpPort => d.mJoinerUdpPort

/-- The presence flag the header pairs with a value member: member `mX` is
paired with the bit-field `mIsXSet`. -/
def isSet (d : otCommissioningDataset) : Field → Bool
  | .mLocator => d.mIsLocatorSet
  | .mSessionId => d.mIsSessionIdSet
  | .mSteeringData => d.mIsSteeringDataSet
  | .mJoinerUdpPort => d.mIsJoinerUdpPortSet

/-- The structure value with the given value members and presence flags. -/
def ofParts (v : (f : Field) → f.Value) (p : Field → Bool) : otCommissioningDataset where
  mLocator := v .mLocator
  mSessionId := v .mSessionId
  mSteeringData := v .mSteeringData
  mJoinerUdpPort := v .mJoinerUdpPort
  mIsLocatorSet := p .mLocator
  mIsSessionIdSet := p .mSessionId
  mIsSteeringDataSet := p .mSteeringData
  mIsJoinerUdpPortSet := p .mJoinerUdpPort

end otCommissioningDataset

/-! ## Device role and leader data -/

/-- The enumeration `otDeviceRole` (types.h, lines 771-779). -/
inductive otDeviceRole where
  | kDeviceRoleOffline
  | kDeviceRoleDisabled
  | kDeviceRoleDetached
  | kDeviceRoleChild
  | kDeviceRoleRouter
  | kDeviceRoleLeader
  deriving DecidableEq, Repr

namespace otDeviceRole

/-- The numeric code of each role. The header gives no explicit values, so C
numbers the members from 0 in declaration order. -/
def toNat : otDeviceRole → Nat
  | kDeviceRoleOffline => 0
  | kDeviceRoleDisabled => 1
  | kDeviceRoleDetached => 2
  | kDeviceRoleChild => 3
  | kDeviceRoleRouter => 4
  | kDeviceRoleLeader => 5

/-- Every member of `otDeviceRole`, in declaration order. -/
def members : List otDeviceRole :=
  [kDeviceRoleOffline, kDeviceRoleDisabled, kDeviceRoleDetached, kDeviceRoleChild,
   kDeviceRoleRouter, kDeviceRoleLeader]

/-- The role with a given code, when there is one. -/
def ofNat? (n : Nat) : Option otDeviceRole :=
  members.find? (fun r => r.toNat == n)

end otDeviceRole

/-- The structure `otLeaderData` (types.h, lines 859-866). -/
structure otLeaderData where
  mPartitionId : uint32_t
  mWeighting : uint8_t
  mDataVersion : uint8_t
  mStableDataVersion : uint8_t
  mLeaderRouterId : uint8_t
  deriving DecidableEq

namespace otLeaderData

/-- The members of a leader-data value, in declaration order. -/
def toTuple (l : otLeaderData) : uint32_t × uint8_t × uint8_t × uint8_t × uint8_t :=
  (l.mPartitionId, l.mWeighting, l.mDataVersion, l.mStableDataVersion, l.mLeaderRouterId)

/-- The leader-data value with the given members. -/
def ofTuple (t : uint32_t × uint8_t × uint8_t × uint8_t × uint8_t) : otLeaderData :=
  ⟨t.1, t.2.1, t.2.2.1, t.2.2.2.1, t.2.2.2.2⟩

end otLeaderData

/-- The all-zero value of each value member of `otOperationalDataset`. -/
def otOperationalDataset.zeroValue : (f : otOperationalDataset.Field) → f.Value
  | .mActiveTimestamp => (0 : uint64_t)
  | .mPendingTimestamp => (0 : uint64_t)
  | .mMasterKey => (⟨CArray.fill _ 0⟩ : otMasterKey)
  | .mNetworkName => (⟨CArray.fill _ 0⟩ : otNetworkName)
  | .mExtendedPanId => (⟨CArray.fill _ 0⟩ : otExtendedPanId)
  | .mMeshLocalPrefix => (⟨CArray.fill _ 0⟩ : otMeshLocalPrefix)
  | .mDelay => (0 : uint32_t)
  | .mPanId => (0 : uint16_t)
  | .mChannel => (0 : uint16_t)
  | .mPSKc => (⟨CArray.fill _ 0⟩ : otPSKc)
  | .mSecurityPolicy => (⟨0, 0⟩ : otSecurityPolicy)
  | .mChannelMaskPage0 => (0 : uint32_t)

/-- The all-zero value of each value member of `otCommissioningDataset`. -/
def otCommissioningDataset.zeroValue : (f : otCommissioningDataset.Field) → f.Value
  | .mLocator => (0 : uint16_t)
  | .mSessionId => (0 : uint16_t)
  | .mSteeringData => (⟨0, CArray.fill _ 0⟩ : otSteeringData)
  | .mJoinerUdpPort => (0 : uint16_t)

/-- A steering-data value whose length member exceeds the capacity of its
storage: `mLength = 17` with sixteen zero bytes in `m8`. -/
def steeringDataOverlong : otSteeringData where
  mLength := 17
  m8 := CArray.fill OT_STEERING_DATA_MAX_LENGTH 0

/-! ## Topology records -/

/-- The constant `OT_EXT_ADDRESS_SIZE`: size of an IEEE 802.15.4 extended address (bytes). -/
def OT_EXT_ADDRESS_SIZE : Nat := 8

/-- The structure `otExtAddress`. -/
structure otExtAddress where
  m8 : CArray uint8_t OT_EXT_ADDRESS_SIZE
  deriving DecidableEq

/-- The C types with which the topology records declare their members;
`bit` is a `bool : 1` bit-field. -/
inductive MemberType where
  | extAddress
  | u8
  | u16
  | u32
  | i8
  | bit
  deriving DecidableEq, Repr

/-- The width in bits of a member of the given type. -/
def MemberType.bits : MemberType → Nat
  | .extAddress => OT_EXT_ADDRESS_SIZE * 8
  | .u8 => 8
  | .u16 => 16
  | .u32 => 32
  | .i8 => 8
  | .bit => 1

/-- The member names that occur in `otNeighborInfo`, `otChildInfo` and
`otRouterInfo`. -/
inductive RecordMember where
  | mExtAddress
  | mAge
  | mRloc16
  | mLinkFrameCounter
  | mMleFrameCounter
  | mLinkQualityIn
  | mLinkQualityOut
  | mAverageRssi
  | mRxOnWhenIdle
  | mSecureDataRequest
  | mFullFunction
  | mFullNetworkData
  | mIsChild
  | mTimeout
  | mChildId
  | mNetworkDataVersion
  | mRouterId
  | mNextHop
  | mPathCost
  | mAllocated
  | mLinkEstablished
  deriving DecidableEq, Repr

/-- The member declarations of the structure `otNeighborInfo` (types.h, lines
785-799), in declaration order. -/
def otNeighborInfo : List (RecordMember × MemberType) :=
  [(.mExtAddress, .extAddress), (.mAge, .u32), (.mRloc16, .u16),
   (.mLinkFrameCounter, .u32), (.mMleFrameCounter, .u32), (.mLinkQualityIn, .u8),
   (.mAverageRssi, .i8), (.mRxOnWhenIdle, .bit), (.mSecureDataRequest, .bit),
   (.mFullFunction, .bit), (.mFullNetworkData, .bit), (.mIsChild, .bit)]

/-- The member declarations of the structure `otChildInfo` (types.h, lines
809-823), in declaration order. -/
def otChildInfo : List (RecordMember × MemberType) :=
  [(.mExtAddress, .extAddress), (.mTimeout, .u32), (.mAge, .u32), (.mRloc16, .u16),
   (.mChildId, .u16), (.mNetworkDataVersion, .u8), (.mLinkQualityIn, .u8),
   (.mAverageRssi, .i8), (.mRxOnWhenIdle, .bit), (.mSecureDataRequest, .bit),
   (.mFullFunction, .bit), (.mFullNetworkData, .bit)]

/-- The member declarations of the structure `otRouterInfo` (types.h, lines
830-842), in declaration order. -/
def otRouterInfo : List (RecordMember × MemberType) :=
  [(.mExtAddress, .extAddress), (.mRloc16, .u16), (.mRouterId, .u8), (.mNextHop, .u8),
   (.mPathCost, .u8), (.mLinkQualityIn, .u8), (.mLinkQualityOut, .u8), (.mAge, .u8),
   (.mAllocated, .bit), (.mLinkEstablished, .bit)]

/-- The declared type of member `m` in a record, when the record has such a member. -/
def memberType? (record : List (RecordMember × MemberType)) (m : RecordMember) :
    Option MemberType :=
  (record.find? (fun d => d.1 = m)).map Prod.snd

/-- The width in bits of member `m` in a record, when the record has such a member. -/
def memberBits? (record : List (RecordMember × MemberType)) (m : RecordMember) : Option Nat :=
  (memberType? record m).map MemberType.bits

/-! ## Attach filter -/

/-- The enumeration `otMleAttachFilter` (types.h, lines 718-724). -/
inductive otMleAttachFilter where
  | kMleAttachAnyPartition
  | kMleAttachSamePartition1
  | kMleAttachSamePartition2
  | kMleAttachBetterPartition
  deriving DecidableEq, Repr

namespace otMleAttachFilter

/-- The numeric code the header assigns to each attach filter. -/
def toNat : otMleAttachFilter → Nat
  | kMleAttachAnyPartition => 0
  | kMleAttachSamePartition1 => 1
  | kMleAttachSamePartition2 => 2
  | kMleAttachBetterPartition => 3

/-- Every member of `otMleAttachFilter`, in declaration order. -/
def members : List otMleAttachFilter :=
  [kMleAttachAnyPartition, kMleAttachSamePartition1, kMleAttachSamePartition2,
   kMleAttachBetterPartition]

/-- The attach filter with a given code, when there is one. -/
def ofNat? (n : Nat) : Option otMleAttachFilter :=
  members.find? (fun a => a.toNat == n)

end otMleAttachFilter

/-! ## Security policy flags -/

/-- The anonymous enumeration of the Security Policy TLV flags (types.h, lines
276-283). -/
inductive otSecurityPolicyFlag where
  | OT_SECURITY_POLICY_OBTAIN_MASTER_KEY
  | OT_SECURITY_POLICY_NATIVE_COMMISSIONING
  | OT_SECURITY_POLICY_ROUTERS
  | OT_SECURITY_POLICY_EXTERNAL_COMMISSIONER
  | OT_SECURITY_POLICY_BEACONS
  deriving DecidableEq, Repr, Fintype

namespace otSecurityPolicyFlag

/-- The value the header gives each security policy flag. -/
def toNat : otSecurityPolicyFlag → Nat
  | OT_SECURITY_POLICY_OBTAIN_MASTER_KEY => 1 <<< 7
  | OT_SECURITY_POLICY_NATIVE_COMMISSIONING => 1 <<< 6
  | OT_SECURITY_POLICY_ROUTERS => 1 <<< 5
  | OT_SECURITY_POLICY_EXTERNAL_COMMISSIONER => 1 <<< 4
  | OT_SECURITY_POLICY_BEACONS => 1 <<< 3

/-- Every security policy flag, in declaration order. -/
def members : List otSecurityPolicyFlag :=
  [OT_SECURITY_POLICY_OBTAIN_MASTER_KEY, OT_SECURITY_POLICY_NATIVE_COMMISSIONING,
   OT_SECURITY_POLICY_ROUTERS, OT_SECURITY_POLICY_EXTERNAL_COMMISSIONER,
   OT_SECURITY_POLICY_BEACONS]

/-- The shift amount in the header's definition `1 << k` of each flag. -/
def bitIndex : otSecurityPolicyFlag → Nat
  | OT_SECURITY_POLICY_OBTAIN_MASTER_KEY => 7
  | OT_SECURITY_POLICY_NATIVE_COMMISSIONING => 6
  | OT_SECURITY_POLICY_ROUTERS => 5
  | OT_SECURITY_POLICY_EXTERNAL_COMMISSIONER => 4
  | OT_SECURITY_POLICY_BEACONS => 3

/-- The bitwise OR of the flags of a set. -/
def orMask (S : Finset otSecurityPolicyFlag) : Nat :=
  members.foldl (fun acc f => if f ∈ S then acc ||| f.toNat else acc) 0

end otSecurityPolicyFlag

namespace otSecurityPolicy

/-- The assignment `p.mFlags = w`: the conversion to `uint8_t` keeps the low
eight bits of `w`. -/
def setFlags (p : otSecurityPolicy) (w : Nat) : otSecurityPolicy :=
  { p with mFlags := ⟨w % 2 ^ 8, Nat.mod_lt w (by decide)⟩ }

/-- The set of flags that are raised in `p.mFlags` (the test `mFlags & flag` of C). -/
def flags (p : otSecurityPolicy) : Finset otSecurityPolicyFlag :=
  (otSecurityPolicyFlag.members.filter (fun f => p.mFlags.val &&& f.toNat != 0)).toFinset

end otSecurityPolicy

/-! ## Channel masks -/

/-- The constant `OT_CHANNEL_11_MASK`: channel 11. -/
def OT_CHANNEL_11_MASK : Nat := 1 <<< 11

/-- The constant `OT_CHANNEL_12_MASK`: channel 12. -/
def OT_CHANNEL_12_MASK : Nat := 1 <<< 12

/-- The constant `OT_CHANNEL_13_MASK`: channel 13. -/
def OT_CHANNEL_13_MASK : Nat := 1 <<< 13

/-- The constant `OT_CHANNEL_14_MASK`: channel 14. -/
def OT_CHANNEL_14_MASK : Nat := 1 <<< 14

/-- The constant `OT_CHANNEL_15_MASK`: channel 15. -/
def OT_CHANNEL_15_MASK : Nat := 1 <<< 15

/-- The constant `OT_CHANNEL_16_MASK`: channel 16. -/
def OT_CHANNEL_16_MASK : Nat := 1 <<< 16

/-- The constant `OT_CHANNEL_17_MASK`: channel 17. -/
def OT_CHANNEL_17_MASK : Nat := 1 <<< 17

/-- The constant `OT_CHANNEL_18_MASK`: channel 18. -/
def OT_CHANNEL_18_MASK : Nat := 1 <<< 18

/-- The constant `OT_CHANNEL_19_MASK`: channel 19. -/
def OT_CHANNEL_19_MASK : Nat := 1 <<< 19

/-- The constant `OT_CHANNEL_20_MASK`: channel 20. -/
def OT_CHANNEL_20_MASK : Nat := 1 <<< 20

/-- The constant `OT_CHANNEL_21_MASK`: channel 21. -/
def OT_CHANNEL_21_MASK : Nat := 1 <<< 21

/-- The constant `OT_CHANNEL_22_MASK`: channel 22. -/
def OT_CHANNEL_22_MASK : Nat := 1 <<< 22

/-- The constant `OT_CHANNEL_23_MASK`: channel 23. -/
def OT_CHANNEL_23_MASK : Nat := 1 <<< 23

/-- The constant `OT_CHANNEL_24_MASK`: channel 24. -/
def OT_CHANNEL_24_MASK : Nat := 1 <<< 24

/-- The constant `OT_CHANNEL_25_MASK`: channel 25. -/
def OT_CHANNEL_25_MASK : Nat := 1 <<< 25

/-- The constant `OT_CHANNEL_26_MASK`: channel 26. -/
def OT_CHANNEL_26_MASK : Nat := 1 <<< 26

/-- The constant `OT_CHANNEL_ALL`: all channels. -/
def OT_CHANNEL_ALL : Nat := 0xffffffff

/-- The channel mask constants of the header, each with the channel its name
and comment give it. -/
def channelMasks : List (Nat × Nat) :=
  [(11, OT_CHANNEL_11_MASK), (12, OT_CHANNEL_12_MASK), (13, OT_CHANNEL_13_MASK), (14,
   OT_CHANNEL_14_MASK), (15, OT_CHANNEL_15_MASK), (16, OT_CHANNEL_16_MASK), (17,
   OT_CHANNEL_17_MASK), (18, OT_CHANNEL_18_MASK), (19, OT_CHANNEL_19_MASK), (20,
   OT_CHANNEL_20_MASK), (21, OT_CHANNEL_21_MASK), (22, OT_CHANNEL_22_MASK), (23,
   OT_CHANNEL_23_MASK), (24, OT_CHANNEL_24_MASK), (25, OT_CHANNEL_25_MASK), (26,
   OT_CHANNEL_26_MASK)]

/-- The conversion of a word to `otChannelMaskPage0` (`uint32_t`): the low 32 bits. -/
def toChannelMaskPage0 (w : Nat) : otChannelMaskPage0 :=
  ⟨w % 2 ^ 32, Nat.mod_lt w (by decide)⟩

/-! ## Router preference -/

/-- The two bits that a bit-field `int mPreference : 2` stores. -/
abbrev bits2 : Type := Fin (2 ^ 2)

/-- Storing an integer in a two-bit signed bit-field keeps its value modulo `2 ^ 2`. -/
def bits2.store (v : Int) : bits2 :=
  ⟨(v % 2 ^ 2).toNat, by omega⟩

/-- Reading a two-bit signed bit-field: the two's-complement value of its bits,
"a 2-bit signed integer" in the words of the header. -/
def bits2.load (b : bits2) : Int :=
  if b.val < 2 ^ 1 then (b.val : Int) else (b.val : Int) - 2 ^ 2

/-- The constant `OT_IP6_ADDRESS_SIZE`: size of an IPv6 address (bytes). -/
def OT_IP6_ADDRESS_SIZE : Nat := 16

/-- The structure `otIp6Address`: the bytes of the union `mFields`, as its
member `m8` shows them. -/
structure otIp6Address where
  m8 : CArray uint8_t OT_IP6_ADDRESS_SIZE
  deriving DecidableEq

/-- The structure `otIp6Prefix`. -/
structure otIp6Prefix where
  mPrefix : otIp6Address
  mLength : uint8_t
  deriving DecidableEq

/-- The structure `otBorderRouterConfig` (types.h, lines 626-677). -/
structure otBorderRouterConfig where
  mPrefix : otIp6Prefix
  mPreference : bits2
  mPreferred : Bool
  mSlaac : Bool
  mDhcp : Bool
  mConfigure : Bool
  mDefaultRoute : Bool
  mOnMesh : Bool
  mStable : Bool
  mRloc16 : uint16_t
  deriving DecidableEq

/-- The structure `otExternalRouteConfig` (types.h, lines 682-698). -/
structure otExternalRouteConfig where
  mPrefix : otIp6Prefix
  mPreference : bits2
  mStable : Bool
  deriving DecidableEq

/-- The assignment `c.mPreference = v`. -/
def otBorderRouterConfig.setPreference (c : otBorderRouterConfig) (v : Int) :
    otBorderRouterConfig :=
  { c with mPreference := bits2.store v }

/-- The value of the expression `c.mPreference`. -/
def otBorderRouterConfig.getPreference (c : otBorderRouterConfig) : Int :=
  bits2.load c.mPreference

/-- The assignment `c.mPreference = v`. -/
def otExternalRouteConfig.setPreference (c : otExternalRouteConfig) (v : Int) :
    otExternalRouteConfig :=
  { c with mPreference := bits2.store v }

/-- The value of the expression `c.mPreference`. -/
def otExternalRouteConfig.getPreference (c : otExternalRouteConfig) : Int :=
  bits2.load c.mPreference

/-- The four values of a two-bit signed integer. -/
def preferenceValues : List Int := [-2, -1, 0, 1]

/-! ## `CONTAINING_RECORD` -/

/-- The constant `BASE` of the fallback definition of `CONTAINING_RECORD`. -/
def BASE : Nat := 0x1

/-- The subtraction `x - y` of two machine integers of `w` bits (`size_t` and
pointer arithmetic on bytes): the difference modulo `2 ^ w`. -/
def subWord (w x y : Nat) : Nat :=
  (x % 2 ^ w + 2 ^ w - y % 2 ^ w) % 2 ^ w

/-- The address `&(p->m)` of a member at byte offset `o` of the structure at
address `p`, as a machine integer of `w` bits. -/
def memberAddress (w p o : Nat) : Nat :=
  (p + o) % 2 ^ w

/-- The expression `(((size_t)&(((s*)base)->m))-base)`, which is `myoffsetof(s,m)`
of the header for `base = BASE`: `o` is the byte offset at which the compiler
places member `m` in structure `s`, `w` the width of `size_t`. -/
def myoffsetofAt (w base o : Nat) : Nat :=
  subWord w (memberAddress w base o) base

/-- The macro `myoffsetof(s,m)`. -/
def myoffsetof (w o : Nat) : Nat :=
  myoffsetofAt w BASE o

/-- The macro `CONTAINING_RECORD(address, type, field)` of the fallback
definition: `(type *)((uint8_t*)(address) - myoffsetof(type, field))`, where `o`
is the byte offset of `field` in `type`. -/
def CONTAINING_RECORD (w address o : Nat) : Nat :=
  subWord w address (myoffsetof w o)

/-! ## Views of an IPv6 address -/

/-- The size in bytes of `uint8_t`. -/
def sizeof_uint8_t : Nat := 1

/-- The size in bytes of `uint16_t`. -/
def sizeof_uint16_t : Nat := 2

/-- The size in bytes of `uint32_t`. -/
def sizeof_uint32_t : Nat := 4

/-- The number read from a sequence of bytes, least significant byte first. -/
def leValue : List uint8_t → Nat
  | [] => 0
  | b :: bs => b.val + 2 ^ 8 * leValue bs

/-- The `k` low bytes of a number, least significant byte first. -/
def leBytes : Nat → Nat → List uint8_t
  | 0, _ => []
  | k + 1, v => ⟨v % 2 ^ 8, Nat.mod_lt v (by decide)⟩ :: leBytes k (v / 2 ^ 8)

/-- The number a machine reads from the bytes of a word, in its byte order. -/
def wordValue (bigEndian : Bool) (bs : List uint8_t) : Nat :=
  if bigEndian then leValue bs.reverse else leValue bs

/-- The `k` bytes a machine stores for a word, in its byte order. -/
def wordBytes (bigEndian : Bool) (k v : Nat) : List uint8_t :=
  if bigEndian then (leBytes k v).reverse else leBytes k v

namespace otIp6Address

/-- The bytes of element `i` of a view of the address whose elements take `size` bytes. -/
def elementBytes (a : otIp6Address) (size i : Nat) : List uint8_t :=
  (a.m8.val.drop (size * i)).take size

/-- The member `mFields.m16` of the union: the same bytes seen as
`OT_IP6_ADDRESS_SIZE / sizeof(uint16_t)` words of 16 bits, each read in the
byte order of the machine. -/
def m16 (bigEndian : Bool) (a : otIp6Address) :
    CArray uint16_t (OT_IP6_ADDRESS_SIZE / sizeof_uint16_t) :=
  ⟨List.ofFn (fun i : Fin (OT_IP6_ADDRESS_SIZE / sizeof_uint16_t) =>
      (⟨wordValue bigEndian (a.elementBytes sizeof_uint16_t i) % 2 ^ 16,
        Nat.mod_lt _ (by decide)⟩ : uint16_t)),
    List.length_ofFn _⟩

/-- The member `mFields.m32` of the union: the same bytes seen as
`OT_IP6_ADDRESS_SIZE / sizeof(uint32_t)` words of 32 bits, each read in the
byte order of the machine. -/
def m32 (bigEndian : Bool) (a : otIp6Address) :
    CArray uint32_t (OT_IP6_ADDRESS_SIZE / sizeof_uint32_t) :=
  ⟨List.ofFn (fun i : Fin (OT_IP6_ADDRESS_SIZE / sizeof_uint32_t) =>
      (⟨wordValue bigEndian (a.elementBytes sizeof_uint32_t i) % 2 ^ 32,
        Nat.mod_lt _ (by decide)⟩ : uint32_t)),
    List.length_ofFn _⟩

end otIp6Address

/-! ## Partition arbiter -/

/-- Modelled from the spec: the two results `Keep` and `Adopt` of
`PartitionArbiter.compare` (section 4.5); the header declares no such type. -/
inductive ArbiterDecision where
  | Keep
  | Adopt
  deriving DecidableEq, Repr

/-- Modelled from the spec: the members of leader data that the ordering of
section 4.5 looks at, most significant first: `mWeighting`, `mPartitionId`,
data version. The header declares no comparison of leader data. -/
def otLeaderData.arbiterKey (l : otLeaderData) : Nat × Nat × Nat :=
  (l.mWeighting.val, l.mPartitionId.val, l.mDataVersion.val)

/-- Modelled from the spec: `PartitionArbiter.compare(local, candidate)` of
section 4.5, a function that is not in the header: "higher `mWeighting` wins;
ties broken by higher `mPartitionId`; further ties broken by higher
`dataVersion`". The candidate is adopted when it wins, otherwise the local
leader data is kept. -/
def PartitionArbiter.compare (loc candidate : otLeaderData) : ArbiterDecision :=
  if loc.mWeighting.val < candidate.mWeighting.val then .Adopt
  else if candidate.mWeighting.val < loc.mWeighting.val then .Keep
  else if loc.mPartitionId.val < candidate.mPartitionId.val then .Adopt
  else if candidate.mPartitionId.val < loc.mPartitionId.val then .Keep
  else if loc.mDataVersion.val < candidate.mDataVersion.val then .Adopt
  else .Keep

/-- A leader-data value with every member zero. -/
def leaderDataTieA : otLeaderData := ⟨0, 0, 0, 0, 0⟩

/-- The leader-data value that differs from `leaderDataTieA` in the stable data
version only. -/
def leaderDataTieB : otLeaderData := ⟨0, 0, 0, 1, 0⟩

/-- The local leader data of the scenario of section 8: weight 32. -/
def leaderDataWeight32 : otLeaderData := ⟨0, 32, 0, 0, 0⟩

/-- The heard leader data of the scenario of section 8: weight 64. -/
def leaderDataWeight64 : otLeaderData := ⟨0, 64, 0, 0, 0⟩

/-! ## TLV encoding of the operational dataset -/

/-- The conversion of a number to `uint8_t`: its low 8 bits. -/
def toUint8 (n : Nat) : uint8_t := ⟨n % 2 ^ 8, Nat.mod_lt n (Nat.two_pow_pos 8)⟩

/-- The conversion of a number to `uint16_t`: its low 16 bits. -/
def toUint16 (n : Nat) : uint16_t := ⟨n % 2 ^ 16, Nat.mod_lt n (Nat.two_pow_pos 16)⟩

/-- The conversion of a number to `uint32_t`: its low 32 bits. -/
def toUint32 (n : Nat) : uint32_t := ⟨n % 2 ^ 32, Nat.mod_lt n (Nat.two_pow_pos 32)⟩

/-- The conversion of a number to `uint64_t`: its low 64 bits. -/
def toUint64 (n : Nat) : uint64_t := ⟨n % 2 ^ 64, Nat.mod_lt n (Nat.two_pow_pos 64)⟩

/-- The network name as a C string: the chars before the first null among the
first `OT_NETWORK_NAME_MAX_SIZE` chars of the storage. -/
def otNetworkName.chars (n : otNetworkName) : List char :=
  (n.m8.val.take OT_NETWORK_NAME_MAX_SIZE).takeWhile (fun c => c != 0)

/-- The network name whose C string is `cs`, the rest of the storage filled with
nulls; `none` when `cs` has more than `OT_NETWORK_NAME_MAX_SIZE` chars or holds
a null, which no C string does. -/
def otNetworkName.ofChars? (cs : List char) : Option otNetworkName :=
  if h : cs.length ≤ OT_NETWORK_NAME_MAX_SIZE ∧ cs.all (fun c => c != 0) = true then
    some ⟨⟨cs ++ List.replicate (OT_NETWORK_NAME_MAX_SIZE + 1 - cs.length) 0, by
      have h1 := h.1
      rw [List.length_append, List.length_replicate]
      omega⟩⟩
  else none

/-- The network name with the same C string and nulls in the rest of the storage. -/
def otNetworkName.normalize (n : otNetworkName) : otNetworkName :=
  ⟨⟨n.chars ++ List.replicate (OT_NETWORK_NAME_MAX_SIZE + 1 - n.chars.length) 0, by
    have h : n.chars.length ≤ OT_NETWORK_NAME_MAX_SIZE :=
      Nat.le_trans (List.takeWhile_sublist _).length_le
        (Nat.le_trans (List.length_take_le _ _) (Nat.le_refl _))
    rw [List.length_append, List.length_replicate]
    omega⟩⟩

/-- The declared maximum size in bytes of the value of a TLV, for the TLV types
whose field the header declares (the members of the operational and of the
commissioning dataset): the size of the member, for the network name
`OT_NETWORK_NAME_MAX_SIZE`, for the steering data `OT_STEERING_DATA_MAX_LENGTH`.
The header declares no field for the other TLV types. -/
def otMeshcopTlvType.maxLength? : otMeshcopTlvType → Option Nat
  | .OT_MESHCOP_TLV_CHANNEL => some 2
  | .OT_MESHCOP_TLV_PANID => some 2
  | .OT_MESHCOP_TLV_EXTPANID => some OT_EXT_PAN_ID_SIZE
  | .OT_MESHCOP_TLV_NETWORKNAME => some OT_NETWORK_NAME_MAX_SIZE
  | .OT_MESHCOP_TLV_PSKC => some OT_PSKC_MAX_SIZE
  | .OT_MESHCOP_TLV_MASTERKEY => some OT_MASTER_KEY_SIZE
  | .OT_MESHCOP_TLV_MESHLOCALPREFIX => some OT_MESH_LOCAL_PREFIX_SIZE
  | .OT_MESHCOP_TLV_STEERING_DATA => some OT_STEERING_DATA_MAX_LENGTH
  | .OT_MESHCOP_TLV_BORDER_AGENT_RLOC => some 2
  | .OT_MESHCOP_TLV_COMM_SESSION_ID => some 2
  | .OT_MESHCOP_TLV_SECURITYPOLICY => some 3
  | .OT_MESHCOP_TLV_ACTIVETIMESTAMP => some 8
  | .OT_MESHCOP_TLV_JOINER_UDP_PORT => some 2
  | .OT_MESHCOP_TLV_PENDINGTIMESTAMP => some 8
  | .OT_MESHCOP_TLV_DELAYTIMER => some 4
  | .OT_MESHCOP_TLV_CHANNELMASK => some 4
  | _ => none

/-- Whether a TLV with type byte `t` and length byte `len` is over-long: `t` is
the code of a TLV type with a declared maximum and `len` exceeds it. -/
def tlvOverlong (t len : Nat) : Bool :=
  match otMeshcopTlvType.ofNat? t with
  | some ty =>
    match ty.maxLength? with
    | some m => decide (m < len)
    | none => false
  | none => false

namespace otOperationalDataset

/-- The dataset all of whose members are zero: every field absent. -/
def zero : otOperationalDataset := ofParts zeroValue (fun _ => false)

/-- The assignment of a value member together with its presence flag:
`d.mX = v; d.mIsXSet = true`. -/
def set (d : otOperationalDataset) : (f : Field) → f.Value → otOperationalDataset
  | .mActiveTimestamp, v => { d with mActiveTimestamp := v, mIsActiveTimestampSet := true }
  | .mPendingTimestamp, v => { d with mPendingTimestamp := v, mIsPendingTimestampSet := true }
  | .mMasterKey, v => { d with mMasterKey := v, mIsMasterKeySet := true }
  | .mNetworkName, v => { d with mNetworkName := v, mIsNetworkNameSet := true }
  | .mExtendedPanId, v => { d with mExtendedPanId := v, mIsExtendedPanIdSet := true }
  | .mMeshLocalPrefix, v => { d with mMeshLocalPrefix := v, mIsMeshLocalPrefixSet := true }
  | .mDelay, v => { d with mDelay := v, mIsDelaySet := true }
  | .mPanId, v => { d with mPanId := v, mIsPanIdSet := true }
  | .mChannel, v => { d with mChannel := v, mIsChannelSet := true }
  | .mPSKc, v => { d with mPSKc := v, mIsPSKcSet := true }
  | .mSecurityPolicy, v => { d with mSecurityPolicy := v, mIsSecurityPolicySet := true }
  | .mChannelMaskPage0, v => { d with mChannelMaskPage0 := v, mIsChannelMaskPage0Set := true }

/-- The member of `otMeshcopTlvType` that the header names after each dataset field. -/
def Field.tlvType : Field → otMeshcopTlvType
  | .mActiveTimestamp => .OT_MESHCOP_TLV_ACTIVETIMESTAMP
  | .mPendingTimestamp => .OT_MESHCOP_TLV_PENDINGTIMESTAMP
  | .mMasterKey => .OT_MESHCOP_TLV_MASTERKEY
  | .mNetworkName => .OT_MESHCOP_TLV_NETWORKNAME
  | .mExtendedPanId => .OT_MESHCOP_TLV_EXTPANID
  | .mMeshLocalPrefix => .OT_MESHCOP_TLV_MESHLOCALPREFIX
  | .mDelay => .OT_MESHCOP_TLV_DELAYTIMER
  | .mPanId => .OT_MESHCOP_TLV_PANID
  | .mChannel => .OT_MESHCOP_TLV_CHANNEL
  | .mPSKc => .OT_MESHCOP_TLV_PSKC
  | .mSecurityPolicy => .OT_MESHCOP_TLV_SECURITYPOLICY
  | .mChannelMaskPage0 => .OT_MESHCOP_TLV_CHANNELMASK

/-- The dataset field that a TLV type code stands for, when it is one. -/
def Field.ofTlvCode? (c : Nat) : Option Field :=
  Field.members.find? (fun f => f.tlvType.toNat == c)

/-- The declared maximum size in bytes of the value of each field: the size of
the member in the structure (for the network name, `OT_NETWORK_NAME_MAX_SIZE`). -/
def Field.maxLength : Field → Nat
  | .mActiveTimestamp => 8
  | .mPendingTimestamp => 8
  | .mMasterKey => OT_MASTER_KEY_SIZE
  | .mNetworkName => OT_NETWORK_NAME_MAX_SIZE
  | .mExtendedPanId => OT_EXT_PAN_ID_SIZE
  | .mMeshLocalPrefix => OT_MESH_LOCAL_PREFIX_SIZE
  | .mDelay => 4
  | .mPanId => 2
  | .mChannel => 2
  | .mPSKc => OT_PSKC_MAX_SIZE
  | .mSecurityPolicy => 3
  | .mChannelMaskPage0 => 4

/-- Modelled from the spec: the value bytes of a TLV. Neither the serialisation
functions nor the layout of a value are in the header, and the spec gives only
the sizes; here integers are sent in their declared width, most significant
byte first, byte arrays as they are, the network name as its C string, and the
security policy as rotation time followed by flags. -/
def encodeValue : (f : Field) → f.Value → List uint8_t
  | .mActiveTimestamp, v => wordBytes true 8 v.val
  | .mPendingTimestamp, v => wordBytes true 8 v.val
  | .mMasterKey, v => v.m8.val
  | .mNetworkName, v => v.chars
  | .mExtendedPanId, v => v.m8.val
  | .mMeshLocalPrefix, v => v.m8.val
  | .mDelay, v => wordBytes true 4 v.val
  | .mPanId, v => wordBytes true 2 v.val
  | .mChannel, v => wordBytes true 2 v.val
  | .mPSKc, v => v.m8.val
  | .mSecurityPolicy, v => wordBytes true 2 v.mRotationTime.val ++ [v.mFlags]
  | .mChannelMaskPage0, v => wordBytes true 4 v.val

/-- Modelled from the spec: the value of a field read from the value bytes of a
TLV, the inverse of `encodeValue`; `none` when the bytes do not have the size
of the field, or are no C string of at most `OT_NETWORK_NAME_MAX_SIZE` chars
for the network name. -/
def decodeValue : (f : Field) → List uint8_t → Option f.Value
  | .mActiveTimestamp, bs => if bs.length = 8 then some (toUint64 (wordValue true bs)) else none
  | .mPendingTimestamp, bs => if bs.length = 8 then some (toUint64 (wordValue true bs)) else none
  | .mMasterKey, bs => if h : bs.length = OT_MASTER_KEY_SIZE then some ⟨⟨bs, h⟩⟩ else none
  | .mNetworkName, bs => otNetworkName.ofChars? bs
  | .mExtendedPanId, bs => if h : bs.length = OT_EXT_PAN_ID_SIZE then some ⟨⟨bs, h⟩⟩ else none
  | .mMeshLocalPrefix, bs =>
    if h : bs.length = OT_MESH_LOCAL_PREFIX_SIZE then some ⟨⟨bs, h⟩⟩ else none
  | .mDelay, bs => if bs.length = 4 then some (toUint32 (wordValue true bs)) else none
  | .mPanId, bs => if bs.length = 2 then some (toUint16 (wordValue true bs)) else none
  | .mChannel, bs => if bs.length = 2 then some (toUint16 (wordValue true bs)) else none
  | .mPSKc, bs => if h : bs.length = OT_PSKC_MAX_SIZE then some ⟨⟨bs, h⟩⟩ else none
  | .mSecurityPolicy, bs =>
    match bs with
    | [a, b, c] => some ⟨toUint16 (wordValue true [a, b]), c⟩
    | _ => none
  | .mChannelMaskPage0, bs => if bs.length = 4 then some (toUint32 (wordValue true bs)) else none

/-- The value of a field as the wire carries it: the network name with nulls
after its C string, every other value as it is. -/
def normValue : (f : Field) → f.Value → f.Value
  | .mActiveTimestamp, v => v
  | .mPendingTimestamp, v => v
  | .mMasterKey, v => v
  | .mNetworkName, v => v.normalize
  | .mExtendedPanId, v => v
  | .mMeshLocalPrefix, v => v
  | .mDelay, v => v
  | .mPanId, v => v
  | .mChannel, v => v
  | .mPSKc, v => v
  | .mSecurityPolicy, v => v
  | .mChannelMaskPage0, v => v

/-- Modelled from the spec: the TLV of one field, "type (1 byte), length (1
byte), value" (section 6); an absent field is "simply omitted" (section 4.2). -/
def encodeField (d : otOperationalDataset) (f : Field) : List uint8_t :=
  if d.isSet f then
    toUint8 f.tlvType.toNat :: toUint8 (encodeValue f (d.value f)).length ::
      encodeValue f (d.value f)
  else []

/-- Modelled from the spec: `encodeTlv` of the NetworkDataStore (section 4.2),
which is not in the header: the TLVs of the present fields, in the order in
which the structure declares them. -/
def encodeTlv (d : otOperationalDataset) : List uint8_t :=
  Field.members.flatMap (encodeField d)

/-- Modelled from the spec: the loop of `decodeTlv`. It reads one TLV after the
other into `acc`. A TLV whose length exceeds the declared maximum of its type
(a dataset field or a commissioning sub-TLV), whose value is cut short, or
whose value is not one of its dataset field, fails with `Parse`; a TLV that
carries no field of the operational dataset is passed over. `fuel` bounds the
number of TLVs read. -/
def decodeLoop : Nat → List uint8_t → otOperationalDataset →
    Except ThreadError otOperationalDataset
  | _, [], acc => .ok acc
  | 0, _ :: _, _ => .error .kThreadError_Parse
  | _ + 1, [_], _ => .error .kThreadError_Parse
  | fuel + 1, t :: len :: rest, acc =>
    if tlvOverlong t.val len.val then .error .kThreadError_Parse
    else if rest.length < len.val then .error .kThreadError_Parse
    else
      match Field.ofTlvCode? t.val with
      | none => decodeLoop fuel (rest.drop len.val) acc
      | some f =>
        match decodeValue f (rest.take len.val) with
        | none => .error .kThreadError_Parse
        | some v => decodeLoop fuel (rest.drop len.val) (acc.set f v)

/-- Modelled from the spec: `decodeTlv(bytes) -> Dataset | ParseError` of the
NetworkDataStore (section 4.2), which is not in the header. Decoding starts
from the dataset with every field absent; every TLV takes at least two bytes,
so the length of the buffer is fuel enough. -/
def decodeTlv (buf : List uint8_t) : Except ThreadError otOperationalDataset :=
  decodeLoop buf.length buf zero

/-- Modelled from the spec: replacing the stored dataset by a received buffer,
"all-or-nothing per message" (section 4.2): the error code and the store after
the operation. -/
def storeTlv (store : otOperationalDataset) (buf : List uint8_t) :
    ThreadError × otOperationalDataset :=
  match decodeTlv buf with
  | .ok d => (.kThreadError_None, d)
  | .error e => (e, store)

/-- Whether the buffer, read as a sequence of TLVs, has a TLV whose length byte
exceeds the declared maximum of its field. -/
def hasOverlongTlv : Nat → List uint8_t → Bool
  | fuel + 1, t :: len :: rest =>
    tlvOverlong t.val len.val ||
      (decide (len.val ≤ rest.length) && hasOverlongTlv fuel (rest.drop len.val))
  | _, _ => false

/-- The operational dataset that a structure value stands for (section 3: "a
set of optional fields ..., each paired with a present/absent flag"): each
present field with its value, the network name being its C string. The storage
of an absent field and the chars after the terminating null of the name are no
part of the dataset. -/
def dataset (d : otOperationalDataset) : (f : Field) → Option f.Value :=
  fun f => if d.isSet f then some (normValue f (d.value f)) else none

/-- The structure value in which a dataset is stored after decoding: the same
presence flags, the network name with nulls after its C string, and zero in
the storage of every absent field. -/
def canonical (d : otOperationalDataset) : otOperationalDataset :=
  ofParts (fun f => if d.isSet f then normValue f (d.value f) else zeroValue f) d.isSet

/-- A dataset in which the PAN id 0xface and the channel 11 are present. -/
def panIdAndChannel : otOperationalDataset :=
  (zero.set .mPanId (0xface : uint16_t)).set .mChannel (11 : uint16_t)

end otOperationalDataset

/-! ## Theorems -/

/-- C1: the sizes the header declares for the TLV-carried values are the wire
bounds of the specification: master key 16 bytes (constant and storage), PSKc
16 bytes, extended PAN id 8 bytes, steering data at most 16 bytes, network name
at most 16 bytes with storage for 17 chars; each bound fits the one-byte TLV
length (it is at most 255). -/
theorem tlv_value_sizes :
    OT_MASTER_KEY_SIZE = 16 ∧ (∀ k : otMasterKey, k.m8.val.length = 16) ∧
    OT_PSKC_MAX_SIZE = 16 ∧ (∀ p : otPSKc, p.m8.val.length = 16) ∧
    OT_EXT_PAN_ID_SIZE = 8 ∧ (∀ x : otExtendedPanId, x.m8.val.length = 8) ∧
    OT_STEERING_DATA_MAX_LENGTH = 16 ∧ (∀ s : otSteeringData, s.m8.val.length = 16) ∧
    OT_NETWORK_NAME_MAX_SIZE = 16 ∧ (∀ n : otNetworkName, n.m8.val.length = 17) ∧
    OT_MASTER_KEY_SIZE ≤ tlvLengthMax ∧ OT_PSKC_MAX_SIZE ≤ tlvLengthMax ∧
    OT_EXT_PAN_ID_SIZE ≤ tlvLengthMax ∧ OT_STEERING_DATA_MAX_LENGTH ≤ tlvLengthMax ∧
    OT_NETWORK_NAME_MAX_SIZE ≤ tlvLengthMax ∧ tlvLengthMax = 255 := by
  refine ⟨rfl, fun k => k.m8.property, rfl, fun p => p.m8.property, rfl,
    fun x => x.m8.property, rfl, fun s => s.m8.property, rfl, fun n => n.m8.property,
    ?_, ?_, ?_, ?_, ?_, ?_⟩ <;> decide

/-- Every member of `ThreadError` occurs in `ThreadError.members`. -/
theorem threadError_mem_members (e : ThreadError) : e ∈ ThreadError.members := by
  cases e <;> decide

/-- Every member of `otMeshcopTlvType` occurs in `otMeshcopTlvType.members`. -/
theorem meshcopTlv_mem_members (t : otMeshcopTlvType) :
    t ∈ otMeshcopTlvType.members := by
  cases t <;> decide

/-- Looking a TLV type up by its own code gives that type back. -/
theorem meshcopTlv_ofNat_toNat (t : otMeshcopTlvType) :
    otMeshcopTlvType.ofNat? t.toNat = some t := by
  cases t <;> rfl

/-- C2: `otMeshcopTlvType` is a well-formed one-byte key. Each of the sixteen
fields the specification lists has its member (with the code shown), every
member's code lies in 0..255, and no two of the 36 members share a code. -/
theorem meshcop_tlv_type_one_byte_key :
    otMeshcopTlvType.specKeys.map otMeshcopTlvType.toNat
      = [0, 1, 2, 3, 4, 5, 7, 8, 12, 14, 51, 52, 53, 9, 11, 18] ∧
    otMeshcopTlvType.specKeys.Nodup ∧
    otMeshcopTlvType.members.length = 36 ∧
    (∀ t : otMeshcopTlvType, t ∈ otMeshcopTlvType.members) ∧
    (∀ t : otMeshcopTlvType, t.toNat ≤ 255) ∧
    Function.Injective otMeshcopTlvType.toNat ∧
    (otMeshcopTlvType.members.map otMeshcopTlvType.toNat).Nodup := by
  refine ⟨rfl, by decide, rfl, meshcopTlv_mem_members, ?_, ?_, by decide⟩
  · intro t
    cases t <;> decide
  · intro a b h
    have ha := meshcopTlv_ofNat_toNat a
    rw [h, meshcopTlv_ofNat_toNat b] at ha
    exact (Option.some.inj ha).symm

/-- C3: each of the 24 error codes the specification lists as surfaced to
callers is a member of `ThreadError` (with the value shown); the 24 values are
pairwise different and none of them is 0. -/
theorem surfaced_errors_are_members :
    ThreadError.specSurfaced.length = 24 ∧
    (∀ e ∈ ThreadError.specSurfaced, e ∈ ThreadError.members) ∧
    ThreadError.specSurfaced.map ThreadError.toNat
      = [2, 3, 4, 5, 6, 7, 8, 9, 10, 12, 14, 16, 17, 18, 19, 20, 21, 22, 25, 26, 28, 29,
         30, 31] ∧
    (ThreadError.specSurfaced.map ThreadError.toNat).Nodup ∧
    (∀ e ∈ ThreadError.specSurfaced, e.toNat ≠ 0) := by
  refine ⟨rfl, fun e _ => threadError_mem_members e, rfl, by decide, by decide⟩

/-- C4 (counterexample): `kThreadError_Failed` is a member of `ThreadError`
with the non-zero value 1 that the specification's list does not contain, so
the statement "every non-zero member is one of the 24 listed codes" is false. -/
theorem failed_is_unlisted_failure :
    ThreadError.kThreadError_Failed.toNat = 1 ∧
    ThreadError.kThreadError_Failed ∉ ThreadError.specSurfaced ∧
    ¬ (∀ e : ThreadError, e.toNat ≠ 0 → e ∈ ThreadError.specSurfaced) := by
  refine ⟨rfl, by decide, fun h => ?_⟩
  exact absurd (h ThreadError.kThreadError_Failed (by decide)) (by decide)

/-- C4 (amended): `ThreadError` has 33 members: `kThreadError_None` (the only
one with value 0), the 24 codes the specification lists, and eight further
failure codes (Failed, NotReceiving, NotImplemented, NoTasklets,
WhitelistFiltered, DestinationAddressFiltered, BlacklistFiltered, Error). A
member is a failure code outside the specification's list exactly when it is
one of these eight. -/
theorem thread_error_partition :
    ThreadError.members.length = 33 ∧ ThreadError.members.Nodup ∧
    (∀ e : ThreadError, e ∈ ThreadError.members) ∧
    (∀ e : ThreadError, e.toNat = 0 ↔ e = ThreadError.kThreadError_None) ∧
    ThreadError.specSurfaced.length = 24 ∧ ThreadError.unlistedFailures.length = 8 ∧
    ThreadError.unlistedFailures.map ThreadError.toNat = [1, 11, 13, 15, 23, 24, 27, 255] ∧
    (∀ e : ThreadError,
      (e.toNat ≠ 0 ∧ e ∉ ThreadError.specSurfaced) ↔ e ∈ ThreadError.unlistedFailures) := by
  refine ⟨rfl, by decide, threadError_mem_members, ?_, rfl, rfl, rfl, ?_⟩
  · intro e
    cases e <;> decide
  · intro e
    cases e <;> decide

/-- Every change flag occurs in `otChangedFlag.members`. -/
theorem changedFlag_mem_members (f : otChangedFlag) : f ∈ otChangedFlag.members := by
  cases f <;> decide

/-- The value of a change flag is two to the power of its shift amount. -/
theorem changedFlag_toNat_eq (f : otChangedFlag) : f.toNat = 2 ^ f.bitIndex := by
  cases f <;> rfl

/-- Different change flags have different shift amounts. -/
theorem changedFlag_bitIndex_inj {f g : otChangedFlag} (h : f.bitIndex = g.bitIndex) :
    f = g := by
  cases f <;> cases g <;> first | rfl | exact absurd h (by decide)

/-- The only bit set in the value of a change flag is the one at its shift amount. -/
theorem changedFlag_testBit (f : otChangedFlag) (k : Nat) :
    f.toNat.testBit k = decide (f.bitIndex = k) := by
  rw [changedFlag_toNat_eq, Nat.testBit_two_pow]

/-- A bit of an OR-accumulation is set when it was set at the start or one of the accumulated flags sets it. -/
theorem changedFlag_foldl_testBit (S : Finset otChangedFlag) (l : List otChangedFlag)
    (acc k : Nat) :
    (l.foldl (fun acc f => if f ∈ S then acc ||| f.toNat else acc) acc).testBit k
      = (acc.testBit k || l.any (fun f => decide (f ∈ S) && f.toNat.testBit k)) := by
  induction l generalizing acc with
  | nil => simp
  | cons f l ih =>
    simp only [List.foldl_cons, List.any_cons]
    rw [ih]
    by_cases h : f ∈ S <;> simp [h, Bool.or_assoc]

/-- The bit of a flag is set in the OR of a set of flags exactly when the flag belongs to the set. -/
theorem changedFlag_orMask_testBit (S : Finset otChangedFlag) (f : otChangedFlag) :
    (otChangedFlag.orMask S).testBit f.bitIndex = decide (f ∈ S) := by
  unfold otChangedFlag.orMask
  rw [changedFlag_foldl_testBit]
  rw [Bool.eq_iff_iff]
  simp only [Nat.zero_testBit, Bool.false_or, List.any_eq_true, Bool.and_eq_true,
    decide_eq_true_eq, changedFlag_testBit]
  constructor
  · rintro ⟨g, -, hg, hk⟩
    rwa [← changedFlag_bitIndex_inj hk]
  · intro h
    exact ⟨f, changedFlag_mem_members f, h, rfl⟩

/-- Masking a word with a flag is non-zero exactly when the bit of the flag is set in the word. -/
theorem changedFlag_and_ne_zero (w : Nat) (f : otChangedFlag) :
    (w &&& f.toNat != 0) = w.testBit f.bitIndex := by
  rw [changedFlag_toNat_eq, Nat.land_comm, Nat.two_pow_and]
  cases w.testBit f.bitIndex <;> simp

/-- C5: the change-notification flags form an unambiguous bitmask. The header
defines exactly twelve flags; the value of each has exactly one bit set; no two
flags share a bit; the flags raised in the OR of a set `S` are exactly those of
`S`; hence the OR of `S` equals the OR of `T` if and only if `S = T`. -/
theorem change_flags_unambiguous_bitmask :
    otChangedFlag.members.length = 12 ∧ otChangedFlag.members.Nodup ∧
    (∀ f : otChangedFlag, f ∈ otChangedFlag.members) ∧
    (∀ f : otChangedFlag, ∃! k, f.toNat.testBit k = true) ∧
    (∀ f g : otChangedFlag, f ≠ g → f.toNat &&& g.toNat = 0) ∧
    (∀ S : Finset otChangedFlag, otChangedFlag.raised (otChangedFlag.orMask S) = S) ∧
    (∀ S T : Finset otChangedFlag,
      otChangedFlag.orMask S = otChangedFlag.orMask T ↔ S = T) := by
  have hr : ∀ S : Finset otChangedFlag, otChangedFlag.raised (otChangedFlag.orMask S) = S := by
    intro S
    ext f
    simp [otChangedFlag.raised, changedFlag_mem_members, changedFlag_and_ne_zero,
      changedFlag_orMask_testBit]
  refine ⟨rfl, by decide, changedFlag_mem_members, ?_, ?_, hr, ?_⟩
  · intro f
    refine ⟨f.bitIndex, ?_, ?_⟩
    · simp [changedFlag_testBit]
    · intro k hk
      simpa [changedFlag_testBit, eq_comm] using hk
  · intro f g
    cases f <;> cases g <;> decide
  · intro S T
    constructor
    · intro h
      rw [← hr S, h, hr T]
    · intro h
      rw [h]

/-- Every value member of `otOperationalDataset` occurs in `Field.members`. -/
theorem operationalField_mem_members (f : otOperationalDataset.Field) :
    f ∈ otOperationalDataset.Field.members := by
  cases f <;> decide

/-- Every value member of `otCommissioningDataset` occurs in `Field.members`. -/
theorem commissioningField_mem_members (f : otCommissioningDataset.Field) :
    f ∈ otCommissioningDataset.Field.members := by
  cases f <;> decide

/-- C6: in `otOperationalDataset` every optional field is paired with its own
presence flag. There are exactly twelve value members; a dataset is determined
by its twelve values and twelve flags (it has no other member); every choice of
the twelve values together with every one of the `2 ^ 12` subsets of present
fields is a dataset; different fields have different flags. The one structure
type holds both a dataset without pending timestamp and delay timer (Active)
and one with both present (Pending). -/
theorem operational_dataset_fields_paired :
    otOperationalDataset.Field.members.length = 12 ∧
    otOperationalDataset.Field.members.Nodup ∧
    (∀ f : otOperationalDataset.Field, f ∈ otOperationalDataset.Field.members) ∧
    (∀ d : otOperationalDataset, otOperationalDataset.ofParts d.value d.isSet = d) ∧
    (∀ (v : (f : otOperationalDataset.Field) → f.Value) (p : otOperationalDataset.Field → Bool),
      (otOperationalDataset.ofParts v p).value = v ∧
      (otOperationalDataset.ofParts v p).isSet = p) ∧
    Fintype.card (otOperationalDataset.Field → Bool) = 2 ^ 12 ∧
    (∀ f g : otOperationalDataset.Field, f ≠ g →
      ∃ d : otOperationalDataset, d.isSet f = true ∧ d.isSet g = false) ∧
    (∃ a p : otOperationalDataset,
      a.isSet .mActiveTimestamp = true ∧ a.isSet .mPendingTimestamp = false ∧
      a.isSet .mDelay = false ∧ p.isSet .mActiveTimestamp = true ∧
      p.isSet .mPendingTimestamp = true ∧ p.isSet .mDelay = true) := by
  have hv : ∀ (v : (f : otOperationalDataset.Field) → f.Value)
      (p : otOperationalDataset.Field → Bool),
      (otOperationalDataset.ofParts v p).value = v ∧
      (otOperationalDataset.ofParts v p).isSet = p := by
    intro v p
    constructor <;> funext f <;> cases f <;> rfl
  refine ⟨rfl, by decide, operationalField_mem_members, ?_, hv, ?_, ?_, ?_⟩
  · intro d
    cases d
    rfl
  · rw [Fintype.card_fun]
    rfl
  · intro f g hfg
    refine ⟨otOperationalDataset.ofParts otOperationalDataset.zeroValue
      (fun x => decide (x = f)), ?_, ?_⟩
    · rw [(hv _ _).2]
      simp
    · rw [(hv _ _).2]
      simpa using fun h => hfg h.symm
  · refine ⟨otOperationalDataset.ofParts otOperationalDataset.zeroValue
        (fun x => decide (x = .mActiveTimestamp)),
      otOperationalDataset.ofParts otOperationalDataset.zeroValue
        (fun x => decide (x = .mActiveTimestamp ∨ x = .mPendingTimestamp ∨ x = .mDelay)),
      ?_, ?_, ?_, ?_, ?_, ?_⟩ <;> rfl

/-- C7: in `otCommissioningDataset` each of the four fields (border-agent
locator, commissioner session id, steering data, joiner UDP port) is
independently optional. There are exactly four value members; a dataset is
determined by its four values and four flags; every choice of values together
with each of the `2 ^ 4 = 16` presence combinations is a dataset; different
fields have different flags. -/
theorem commissioning_dataset_fields_optional :
    otCommissioningDataset.Field.members.length = 4 ∧
    otCommissioningDataset.Field.members.Nodup ∧
    (∀ f : otCommissioningDataset.Field, f ∈ otCommissioningDataset.Field.members) ∧
    (∀ d : otCommissioningDataset, otCommissioningDataset.ofParts d.value d.isSet = d) ∧
    (∀ (v : (f : otCommissioningDataset.Field) → f.Value)
        (p : otCommissioningDataset.Field → Bool),
      (otCommissioningDataset.ofParts v p).value = v ∧
      (otCommissioningDataset.ofParts v p).isSet = p) ∧
    Fintype.card (otCommissioningDataset.Field → Bool) = 16 ∧
    (∀ f g : otCommissioningDataset.Field, f ≠ g →
      ∃ d : otCommissioningDataset, d.isSet f = true ∧ d.isSet g = false) := by
  have hv : ∀ (v : (f : otCommissioningDataset.Field) → f.Value)
      (p : otCommissioningDataset.Field → Bool),
      (otCommissioningDataset.ofParts v p).value = v ∧
      (otCommissioningDataset.ofParts v p).isSet = p := by
    intro v p
    constructor <;> funext f <;> cases f <;> rfl
  refine ⟨rfl, by decide, commissioningField_mem_members, ?_, hv, ?_, ?_⟩
  · intro d
    cases d
    rfl
  · rw [Fintype.card_fun]
    rfl
  · intro f g hfg
    refine ⟨otCommissioningDataset.ofParts otCommissioningDataset.zeroValue
      (fun x => decide (x = f)), ?_, ?_⟩
    · rw [(hv _ _).2]
      simp
    · rw [(hv _ _).2]
      simpa using fun h => hfg h.symm

/-- C8 (counterexample): the steering-data value with `mLength = 17` is a value
of `otSteeringData` whose length member exceeds `OT_STEERING_DATA_MAX_LENGTH`,
so "for every value of `otSteeringData`, `mLength` is at most 16" is false. -/
theorem steering_length_exceeds_capacity :
    steeringDataOverlong.mLength.val = 17 ∧
    steeringDataOverlong.m8.val.length = 16 ∧
    ¬ (steeringDataOverlong.mLength.val ≤ OT_STEERING_DATA_MAX_LENGTH) ∧
    ¬ (∀ s : otSteeringData, s.mLength.val ≤ OT_STEERING_DATA_MAX_LENGTH) := by
  refine ⟨rfl, rfl, by decide, fun h => ?_⟩
  exact absurd (h steeringDataOverlong) (by decide)

/-- C8 (amended): the storage `m8` of every steering-data value has exactly
`OT_STEERING_DATA_MAX_LENGTH = 16` bytes, which is 128 bits, and a length is
within 16 bytes exactly when it is within 128 bits. The length member `mLength`
is an 8-bit member that ranges over all of 0..255: the structure type does not
bound it by 16. -/
theorem steering_data_capacity :
    OT_STEERING_DATA_MAX_LENGTH = 16 ∧ OT_STEERING_DATA_MAX_LENGTH * 8 = 128 ∧
    (∀ s : otSteeringData, s.m8.val.length = OT_STEERING_DATA_MAX_LENGTH) ∧
    (∀ s : otSteeringData,
      s.mLength.val ≤ OT_STEERING_DATA_MAX_LENGTH ↔ s.mLength.val * 8 ≤ 128) ∧
    (∀ n : Nat, n ≤ 255 ↔ ∃ s : otSteeringData, s.mLength.val = n) := by
  refine ⟨rfl, rfl, fun s => s.m8.property, ?_, ?_⟩
  · intro s
    show s.mLength.val ≤ 16 ↔ s.mLength.val * 8 ≤ 128
    omega
  · intro n
    constructor
    · intro h
      exact ⟨⟨⟨n, by show n < 256; omega⟩, CArray.fill _ 0⟩, rfl⟩
    · rintro ⟨s, rfl⟩
      have := s.mLength.isLt
      change s.mLength.val < 256 at this
      omega

/-- Looking a role up by its own code gives that role back. -/
theorem deviceRole_ofNat_toNat (r : otDeviceRole) : otDeviceRole.ofNat? r.toNat = some r := by
  cases r <;> rfl

/-- C9: a device role is exactly one of six values. `otDeviceRole` has exactly
the members Offline, Disabled, Detached, Child, Router and Leader; their codes
are 0 to 5 in that order and pairwise different; each code from 0 to 5 denotes
one and only one role, and no other number is the code of a role. -/
theorem device_role_six_values :
    otDeviceRole.members.length = 6 ∧ otDeviceRole.members.Nodup ∧
    (∀ r : otDeviceRole, r ∈ otDeviceRole.members) ∧
    (∀ r : otDeviceRole,
      r = .kDeviceRoleOffline ∨ r = .kDeviceRoleDisabled ∨ r = .kDeviceRoleDetached ∨
      r = .kDeviceRoleChild ∨ r = .kDeviceRoleRouter ∨ r = .kDeviceRoleLeader) ∧
    otDeviceRole.members.map otDeviceRole.toNat = [0, 1, 2, 3, 4, 5] ∧
    Function.Injective otDeviceRole.toNat ∧
    (∀ r : otDeviceRole, otDeviceRole.ofNat? r.toNat = some r) ∧
    (∀ n : Nat, n < 6 ↔ ∃ r : otDeviceRole, r.toNat = n) := by
  refine ⟨rfl, by decide, ?_, ?_, rfl, ?_, deviceRole_ofNat_toNat, ?_⟩
  · intro r
    cases r <;> decide
  · intro r
    cases r <;> simp
  · intro a b h
    have ha := deviceRole_ofNat_toNat a
    rw [h, deviceRole_ofNat_toNat b] at ha
    exact (Option.some.inj ha).symm
  · intro n
    constructor
    · intro h
      have h6 : n = 0 ∨ n = 1 ∨ n = 2 ∨ n = 3 ∨ n = 4 ∨ n = 5 := by omega
      rcases h6 with rfl | rfl | rfl | rfl | rfl | rfl
      · exact ⟨.kDeviceRoleOffline, rfl⟩
      · exact ⟨.kDeviceRoleDisabled, rfl⟩
      · exact ⟨.kDeviceRoleDetached, rfl⟩
      · exact ⟨.kDeviceRoleChild, rfl⟩
      · exact ⟨.kDeviceRoleRouter, rfl⟩
      · exact ⟨.kDeviceRoleLeader, rfl⟩
    · rintro ⟨r, rfl⟩
      cases r <;> decide

/-- C10: leader data consists of exactly five members: a 32-bit partition id,
an 8-bit leader weight, and an 8-bit data version, stable data version and
leader router id. A leader-data value is determined by these five members and
every combination of them is a value; the partition id ranges over exactly
0..2^32-1 and the weight (like the three other members) over exactly 0..255. -/
theorem leader_data_five_fields :
    (∀ l : otLeaderData, otLeaderData.ofTuple l.toTuple = l) ∧
    (∀ t : uint32_t × uint8_t × uint8_t × uint8_t × uint8_t,
      (otLeaderData.ofTuple t).toTuple = t) ∧
    Function.Bijective otLeaderData.toTuple ∧
    (∀ n : Nat, n ≤ 2 ^ 32 - 1 ↔ ∃ l : otLeaderData, l.mPartitionId.val = n) ∧
    (∀ n : Nat, n ≤ 255 ↔ ∃ l : otLeaderData, l.mWeighting.val = n) ∧
    (∀ n : Nat, n ≤ 255 ↔ ∃ l : otLeaderData, l.mDataVersion.val = n) ∧
    (∀ n : Nat, n ≤ 255 ↔ ∃ l : otLeaderData, l.mStableDataVersion.val = n) ∧
    (∀ n : Nat, n ≤ 255 ↔ ∃ l : otLeaderData, l.mLeaderRouterId.val = n) := by
  have h1 : ∀ l : otLeaderData, otLeaderData.ofTuple l.toTuple = l := fun l => by
    cases l
    rfl
  have h2 : ∀ t : uint32_t × uint8_t × uint8_t × uint8_t × uint8_t,
      (otLeaderData.ofTuple t).toTuple = t := fun t => rfl
  have h8 : ∀ (n : Nat) (x : uint8_t), x.val = n → n ≤ 255 := by
    intro n x hx
    have := x.isLt
    change x.val < 256 at this
    omega
  have m8 : ∀ n : Nat, n ≤ 255 → n < 2 ^ 8 := by
    intro n h
    show n < 256
    omega
  refine ⟨h1, h2, ?_, ?_, ?_, ?_, ?_, ?_⟩
  · exact Function.bijective_iff_has_inverse.mpr ⟨otLeaderData.ofTuple, h1, h2⟩
  · intro n
    constructor
    · intro h
      exact ⟨⟨⟨n, by show n < 4294967296; omega⟩, 0, 0, 0, 0⟩, rfl⟩
    · rintro ⟨l, rfl⟩
      have := l.mPartitionId.isLt
      change l.mPartitionId.val < 4294967296 at this
      omega
  · exact fun n => ⟨fun h => ⟨⟨0, ⟨n, m8 n h⟩, 0, 0, 0⟩, rfl⟩, fun ⟨l, hl⟩ => h8 n _ hl⟩
  · exact fun n => ⟨fun h => ⟨⟨0, 0, ⟨n, m8 n h⟩, 0, 0⟩, rfl⟩, fun ⟨l, hl⟩ => h8 n _ hl⟩
  · exact fun n => ⟨fun h => ⟨⟨0, 0, 0, ⟨n, m8 n h⟩, 0⟩, rfl⟩, fun ⟨l, hl⟩ => h8 n _ hl⟩
  · exact fun n => ⟨fun h => ⟨⟨0, 0, 0, 0, ⟨n, m8 n h⟩⟩, rfl⟩, fun ⟨l, hl⟩ => h8 n _ hl⟩

/-- C13 (counterexample): `otNeighborInfo` and `otChildInfo` declare no
link-quality-out member (only `otRouterInfo` does), so "each of the three
topology records carries a link-quality-out value" is false. -/
theorem neighbor_and_child_lack_link_quality_out :
    memberType? otNeighborInfo .mLinkQualityOut = none ∧
    memberType? otChildInfo .mLinkQualityOut = none ∧
    ¬ (∀ r ∈ [otNeighborInfo, otChildInfo, otRouterInfo],
        (memberType? r .mLinkQualityOut).isSome = true) := by
  refine ⟨rfl, rfl, fun h => ?_⟩
  exact absurd (h otNeighborInfo (by simp)) (by decide)

/-- C13 (amended): each of the three topology records carries a 64-bit extended
address, a 16-bit RLOC16, an age counter (32-bit in the neighbor and child
records, 8-bit in the router record) and a link-quality-in value; a
link-quality-out value is carried by the router record only. In addition the
child record carries a timeout and a child id, and the router record a next
hop, a path cost, an allocated flag and a link-established flag. -/
theorem topology_record_members :
    (∀ r ∈ [otNeighborInfo, otChildInfo, otRouterInfo],
      memberBits? r .mExtAddress = some 64 ∧ memberBits? r .mRloc16 = some 16 ∧
      (memberType? r .mAge).isSome = true ∧ memberType? r .mLinkQualityIn = some .u8) ∧
    memberType? otNeighborInfo .mAge = some .u32 ∧
    memberType? otChildInfo .mAge = some .u32 ∧
    memberType? otRouterInfo .mAge = some .u8 ∧
    memberType? otNeighborInfo .mLinkQualityOut = none ∧
    memberType? otChildInfo .mLinkQualityOut = none ∧
    memberType? otRouterInfo .mLinkQualityOut = some .u8 ∧
    memberType? otChildInfo .mTimeout = some .u32 ∧
    memberType? otChildInfo .mChildId = some .u16 ∧
    memberType? otRouterInfo .mNextHop = some .u8 ∧
    memberType? otRouterInfo .mPathCost = some .u8 ∧
    memberType? otRouterInfo .mAllocated = some .bit ∧
    memberType? otRouterInfo .mLinkEstablished = some .bit ∧
    (otNeighborInfo.map Prod.fst).Nodup ∧ (otChildInfo.map Prod.fst).Nodup ∧
    (otRouterInfo.map Prod.fst).Nodup := by
  refine ⟨?_, rfl, rfl, rfl, rfl, rfl, rfl, rfl, rfl, rfl, rfl, rfl, rfl,
    by decide, by decide, by decide⟩
  intro r hr
  simp only [List.mem_cons, List.mem_singleton, List.not_mem_nil, or_false] at hr
  rcases hr with rfl | rfl | rfl <;> exact ⟨rfl, rfl, rfl, rfl⟩

/-- Looking an attach filter up by its own code gives that filter back. -/
theorem attachFilter_ofNat_toNat (a : otMleAttachFilter) :
    otMleAttachFilter.ofNat? a.toNat = some a := by
  cases a <;> rfl

/-- C15: the attach filter is one of exactly four values. `otMleAttachFilter`
has exactly the members AnyPartition, SamePartition attempt 1, SamePartition
attempt 2 and BetterPartition, with the pairwise different codes 0, 1, 2, 3. -/
theorem attach_filter_four_values :
    otMleAttachFilter.members.length = 4 ∧ otMleAttachFilter.members.Nodup ∧
    (∀ a : otMleAttachFilter, a ∈ otMleAttachFilter.members) ∧
    (∀ a : otMleAttachFilter,
      a = .kMleAttachAnyPartition ∨ a = .kMleAttachSamePartition1 ∨
      a = .kMleAttachSamePartition2 ∨ a = .kMleAttachBetterPartition) ∧
    otMleAttachFilter.kMleAttachAnyPartition.toNat = 0 ∧
    otMleAttachFilter.kMleAttachSamePartition1.toNat = 1 ∧
    otMleAttachFilter.kMleAttachSamePartition2.toNat = 2 ∧
    otMleAttachFilter.kMleAttachBetterPartition.toNat = 3 ∧
    Function.Injective otMleAttachFilter.toNat ∧
    (otMleAttachFilter.members.map otMleAttachFilter.toNat).Nodup := by
  refine ⟨rfl, by decide, ?_, ?_, rfl, rfl, rfl, rfl, ?_, by decide⟩
  · intro a
    cases a <;> decide
  · intro a
    cases a <;> simp
  · intro a b h
    have ha := attachFilter_ofNat_toNat a
    rw [h, attachFilter_ofNat_toNat b] at ha
    exact (Option.some.inj ha).symm

/-- A bit of an OR-accumulation over a list of flags is set when it was set at
the start or one of the accumulated flags sets it. -/
theorem flagFold_testBit {α : Type} [DecidableEq α] (val : α → Nat) (S : Finset α)
    (l : List α) (acc k : Nat) :
    (l.foldl (fun acc f => if f ∈ S then acc ||| val f else acc) acc).testBit k
      = (acc.testBit k || l.any (fun f => decide (f ∈ S) && (val f).testBit k)) := by
  induction l generalizing acc with
  | nil => simp
  | cons f l ih =>
    simp only [List.foldl_cons, List.any_cons]
    rw [ih]
    by_cases h : f ∈ S <;> simp [h, Bool.or_assoc]

/-- An OR-accumulation of flags below `2 ^ n` stays below `2 ^ n`. -/
theorem flagFold_lt {α : Type} [DecidableEq α] (val : α → Nat) (S : Finset α) (n : Nat)
    (hval : ∀ f, val f < 2 ^ n) (l : List α) (acc : Nat) (hacc : acc < 2 ^ n) :
    l.foldl (fun acc f => if f ∈ S then acc ||| val f else acc) acc < 2 ^ n := by
  induction l generalizing acc with
  | nil => simpa using hacc
  | cons f l ih =>
    simp only [List.foldl_cons]
    apply ih
    by_cases h : f ∈ S
    · simpa [h] using Nat.or_lt_two_pow hacc (hval f)
    · simpa [h] using hacc

/-- Every security policy flag occurs in `otSecurityPolicyFlag.members`. -/
theorem securityFlag_mem_members (f : otSecurityPolicyFlag) :
    f ∈ otSecurityPolicyFlag.members := by
  cases f <;> decide

/-- The value of a security policy flag is two to the power of its shift amount. -/
theorem securityFlag_toNat_eq (f : otSecurityPolicyFlag) : f.toNat = 2 ^ f.bitIndex := by
  cases f <;> rfl

/-- Different security policy flags have different shift amounts. -/
theorem securityFlag_bitIndex_inj {f g : otSecurityPolicyFlag}
    (h : f.bitIndex = g.bitIndex) : f = g := by
  cases f <;> cases g <;> first | rfl | exact absurd h (by decide)

/-- The only bit set in the value of a security policy flag is the one at its
shift amount. -/
theorem securityFlag_testBit (f : otSecurityPolicyFlag) (k : Nat) :
    f.toNat.testBit k = decide (f.bitIndex = k) := by
  rw [securityFlag_toNat_eq, Nat.testBit_two_pow]

/-- Every security policy flag is below `2 ^ 8`. -/
theorem securityFlag_lt (f : otSecurityPolicyFlag) : f.toNat < 2 ^ 8 := by
  cases f <;> decide

/-- The OR of any set of security policy flags is below `2 ^ 8`. -/
theorem securityFlag_orMask_lt (S : Finset otSecurityPolicyFlag) :
    otSecurityPolicyFlag.orMask S < 2 ^ 8 :=
  flagFold_lt otSecurityPolicyFlag.toNat S 8 securityFlag_lt _ 0 (by decide)

/-- The bit of a flag is set in the OR of a set of security policy flags exactly
when the flag belongs to the set. -/
theorem securityFlag_orMask_testBit (S : Finset otSecurityPolicyFlag)
    (f : otSecurityPolicyFlag) :
    (otSecurityPolicyFlag.orMask S).testBit f.bitIndex = decide (f ∈ S) := by
  unfold otSecurityPolicyFlag.orMask
  rw [flagFold_testBit, Bool.eq_iff_iff]
  simp only [Nat.zero_testBit, Bool.false_or, List.any_eq_true, Bool.and_eq_true,
    decide_eq_true_eq, securityFlag_testBit]
  constructor
  · rintro ⟨g, -, hg, hk⟩
    rwa [← securityFlag_bitIndex_inj hk]
  · intro h
    exact ⟨f, securityFlag_mem_members f, h, rfl⟩

/-- Masking a word with a security policy flag is non-zero exactly when the bit
of the flag is set in the word. -/
theorem securityFlag_and_ne_zero (w : Nat) (f : otSecurityPolicyFlag) :
    (w &&& f.toNat != 0) = w.testBit f.bitIndex := by
  rw [securityFlag_toNat_eq, Nat.land_comm, Nat.two_pow_and]
  cases w.testBit f.bitIndex <;> simp

/-- C14: the security policy is a rotation-time counter plus a set of exactly
five flags. Each flag constant has exactly one bit set, no two flags share a
bit, every flag and every OR of flags is below `2 ^ 8` and so fits the 8-bit
member `mFlags`; storing the OR of any of the `2 ^ 5 = 32` sets of flags in
`mFlags` keeps the word, leaves the rotation time alone, and the flags read
back are exactly those of the set. -/
theorem security_policy_flags_fit :
    otSecurityPolicyFlag.members.length = 5 ∧ otSecurityPolicyFlag.members.Nodup ∧
    (∀ f : otSecurityPolicyFlag, f ∈ otSecurityPolicyFlag.members) ∧
    (∀ f : otSecurityPolicyFlag, ∃! k, f.toNat.testBit k = true) ∧
    (∀ f g : otSecurityPolicyFlag, f ≠ g → f.toNat &&& g.toNat = 0) ∧
    (∀ f : otSecurityPolicyFlag, f.toNat < 2 ^ 8) ∧
    (∀ S : Finset otSecurityPolicyFlag, otSecurityPolicyFlag.orMask S < 2 ^ 8) ∧
    Fintype.card (Finset otSecurityPolicyFlag) = 32 ∧
    (∀ (p : otSecurityPolicy) (S : Finset otSecurityPolicyFlag),
      (p.setFlags (otSecurityPolicyFlag.orMask S)).mFlags.val = otSecurityPolicyFlag.orMask S ∧
      (p.setFlags (otSecurityPolicyFlag.orMask S)).mRotationTime = p.mRotationTime ∧
      (p.setFlags (otSecurityPolicyFlag.orMask S)).flags = S) ∧
    (∀ S T : Finset otSecurityPolicyFlag,
      otSecurityPolicyFlag.orMask S = otSecurityPolicyFlag.orMask T ↔ S = T) := by
  have hstore : ∀ (p : otSecurityPolicy) (S : Finset otSecurityPolicyFlag),
      (p.setFlags (otSecurityPolicyFlag.orMask S)).mFlags.val
        = otSecurityPolicyFlag.orMask S := by
    intro p S
    exact Nat.mod_eq_of_lt (securityFlag_orMask_lt S)
  have hread : ∀ (p : otSecurityPolicy) (S : Finset otSecurityPolicyFlag),
      (p.setFlags (otSecurityPolicyFlag.orMask S)).flags = S := by
    intro p S
    ext f
    simp only [otSecurityPolicy.flags, hstore]
    simp [securityFlag_mem_members, securityFlag_and_ne_zero, securityFlag_orMask_testBit]
  refine ⟨rfl, by decide, securityFlag_mem_members, ?_, ?_, securityFlag_lt,
    securityFlag_orMask_lt, ?_, fun p S => ⟨hstore p S, rfl, hread p S⟩, ?_⟩
  · intro f
    refine ⟨f.bitIndex, ?_, ?_⟩
    · simp [securityFlag_testBit]
    · intro k hk
      simpa [securityFlag_testBit, eq_comm] using hk
  · intro f g
    cases f <;> cases g <;> decide
  · rw [Fintype.card_finset]
    rfl
  · intro S T
    constructor
    · intro h
      have hS := hread ⟨0, 0⟩ S
      rw [h, hread] at hS
      exact hS.symm
    · intro h
      rw [h]

/-- C17: for every channel `n` from 11 to 26 the constant `OT_CHANNEL_n_MASK`
is `2 ^ n`, so exactly bit `n` of it is set, and it is unchanged by the
conversion to the 32-bit `otChannelMaskPage0`; no two channel masks share a
bit; `OT_CHANNEL_ALL` is the word of 32 ones and its AND with each channel mask
is that mask. -/
theorem channel_masks_single_bit :
    channelMasks.map Prod.fst = List.range' 11 16 ∧
    (∀ p ∈ channelMasks, p.2 = 2 ^ p.1) ∧
    (∀ p ∈ channelMasks, ∀ k : Nat, p.2.testBit k = decide (p.1 = k)) ∧
    (∀ p ∈ channelMasks, p.2 < 2 ^ 32 ∧ (toChannelMaskPage0 p.2).val = p.2) ∧
    channelMasks.Pairwise (fun p q => p.2 &&& q.2 = 0) ∧
    OT_CHANNEL_ALL = 2 ^ 32 - 1 ∧
    (∀ p ∈ channelMasks, OT_CHANNEL_ALL &&& p.2 = p.2) := by
  have h2 : ∀ p ∈ channelMasks, p.2 = 2 ^ p.1 := by decide
  refine ⟨by decide, h2, ?_, by decide, by decide, by decide, by decide⟩
  intro p hp k
  rw [h2 p hp, Nat.testBit_two_pow]

/-- C18: the router preference of a border-router configuration and of an
external-route configuration is a 2-bit signed integer: reading `mPreference`
always gives one of -2, -1, 0, 1, and storing any of the four and reading it
back returns it; an integer is read back unchanged exactly when it is one of the
four (storing 2 reads back as -2). -/
theorem router_preference_two_bit_signed :
    (∀ c : otBorderRouterConfig, c.getPreference ∈ preferenceValues) ∧
    (∀ c : otExternalRouteConfig, c.getPreference ∈ preferenceValues) ∧
    (∀ (c : otBorderRouterConfig), ∀ v ∈ preferenceValues,
      (c.setPreference v).getPreference = v) ∧
    (∀ (c : otExternalRouteConfig), ∀ v ∈ preferenceValues,
      (c.setPreference v).getPreference = v) ∧
    (∀ v : Int, (-2 ≤ v ∧ v ≤ 1) ↔ bits2.load (bits2.store v) = v) ∧
    bits2.load (bits2.store 2) = -2 := by
  have hload : ∀ b : bits2, bits2.load b ∈ preferenceValues := by decide
  have hrt : ∀ v ∈ preferenceValues, bits2.load (bits2.store v) = v := by decide
  refine ⟨fun c => hload _, fun c => hload _, fun c v hv => hrt v hv,
    fun c v hv => hrt v hv, ?_, by decide⟩
  intro v
  constructor
  · rintro ⟨h1, h2⟩
    apply hrt
    have : v = -2 ∨ v = -1 ∨ v = 0 ∨ v = 1 := by omega
    rcases this with rfl | rfl | rfl | rfl <;> decide
  · intro h
    have hm := hload (bits2.store v)
    rw [h] at hm
    simp only [preferenceValues, List.mem_cons, List.mem_singleton, List.not_mem_nil,
      or_false] at hm
    omega

/-- C19: the numeric encoding of `ThreadError` is unambiguous: its 33 members
have pairwise different values, `kThreadError_None` is the only member with
value 0, and the values are 0 through 31 and 255, all within 0..255. -/
theorem thread_error_encoding_unambiguous :
    ThreadError.members.length = 33 ∧
    (∀ e : ThreadError, e ∈ ThreadError.members) ∧
    (ThreadError.members.map ThreadError.toNat).Nodup ∧
    Function.Injective ThreadError.toNat ∧
    ThreadError.kThreadError_None.toNat = 0 ∧
    (∀ e : ThreadError, e.toNat = 0 ↔ e = ThreadError.kThreadError_None) ∧
    (∀ e : ThreadError, e.toNat ≤ 255) ∧
    ThreadError.members.map ThreadError.toNat = List.range 32 ++ [255] := by
  have hnd : (ThreadError.members.map ThreadError.toNat).Nodup := by decide
  refine ⟨rfl, threadError_mem_members, hnd, ?_, rfl, ?_, ?_, by decide⟩
  · intro a b h
    exact List.inj_on_of_nodup_map hnd (threadError_mem_members a)
      (threadError_mem_members b) h
  · intro e
    cases e <;> decide
  · intro e
    cases e <;> decide

/-- Subtracting `y` from the machine sum `x + y` gives `x` back, for `x` below `2 ^ w`. -/
theorem subWord_add_cancel (w x y : Nat) (hx : x < 2 ^ w) :
    subWord w ((x + y) % 2 ^ w) y = x := by
  unfold subWord
  have hP : 0 < 2 ^ w := Nat.pos_of_ne_zero (by positivity)
  generalize 2 ^ w = P at hx hP
  have hy : y % P < P := Nat.mod_lt y hP
  have key : ((x + y) % P % P + P - y % P) % P = x % P := by
    have h1 : ((x + y) % P % P + P - y % P + y % P) % P = (x + y % P) % P := by
      have : (x + y) % P % P + P - y % P + y % P = (x + y) % P + P := by
        rw [Nat.mod_mod]
        omega
      rw [this, Nat.add_mod_right, Nat.mod_mod, Nat.add_mod x y P, Nat.add_mod x (y % P) P,
        Nat.mod_mod]
    exact Nat.ModEq.add_right_cancel' (y % P) h1
  rw [key, Nat.mod_eq_of_lt hx]

/-- C20: the fallback `CONTAINING_RECORD` macro undoes taking the address of a
member. With addresses as machine integers of `w` bits, a member offset `o` and
a structure address `a` below `2 ^ w`: the offset expression evaluates to `o`
for every value of the base constant, in particular `myoffsetof` is `o`, and
`CONTAINING_RECORD` applied to the member address `a + o` returns `a`. -/
theorem containing_record_inverts_member_address (w base a o : Nat)
    (ho : o < 2 ^ w) (ha : a < 2 ^ w) :
    myoffsetofAt w base o = o ∧ myoffsetof w o = o ∧
    CONTAINING_RECORD w (memberAddress w a o) o = a := by
  have hoff : ∀ b : Nat, myoffsetofAt w b o = o := by
    intro b
    unfold myoffsetofAt memberAddress
    rw [Nat.add_comm b o]
    exact subWord_add_cancel w o b ho
  refine ⟨hoff base, hoff BASE, ?_⟩
  unfold CONTAINING_RECORD myoffsetof memberAddress
  rw [hoff BASE]
  exact subWord_add_cancel w a o ha

/-- C20 (witness): on a 32-bit machine, with base constant 7, the member at
offset 0x20 of the structure at address 0xfffffff0 (the member address wraps
around to 0x10). -/
theorem containing_record_inverts_member_address_witness :
    (0x20 < 2 ^ 32 ∧ 0xfffffff0 < 2 ^ 32) ∧ memberAddress 32 0xfffffff0 0x20 = 0x10 ∧
    myoffsetofAt 32 7 0x20 = 0x20 ∧ myoffsetof 32 0x20 = 0x20 ∧
    CONTAINING_RECORD 32 (memberAddress 32 0xfffffff0 0x20) 0x20 = 0xfffffff0 :=
  ⟨⟨by decide, by decide⟩, by decide,
    containing_record_inverts_member_address 32 7 0xfffffff0 0x20 (by decide) (by decide)⟩

/-- Writing a number read from bytes back into as many bytes gives the bytes. -/
theorem leBytes_leValue (bs : List uint8_t) : leBytes bs.length (leValue bs) = bs := by
  induction bs with
  | nil => rfl
  | cons b bs ih =>
    have hb : b.val < 256 := b.isLt
    simp only [List.length_cons, leValue, leBytes]
    have h1 : (b.val + 2 ^ 8 * leValue bs) % 2 ^ 8 = b.val := by omega
    have h2 : (b.val + 2 ^ 8 * leValue bs) / 2 ^ 8 = leValue bs := by omega
    rw [h2, ih]
    congr 1
    exact Fin.ext h1

/-- A number read from `n` bytes is below `2 ^ (8 * n)`. -/
theorem leValue_lt (bs : List uint8_t) : leValue bs < 2 ^ (8 * bs.length) := by
  induction bs with
  | nil => simp [leValue]
  | cons b bs ih =>
    have hb : b.val < 256 := b.isLt
    simp only [List.length_cons, leValue]
    have : 2 ^ (8 * (bs.length + 1)) = 2 ^ 8 * 2 ^ (8 * bs.length) := by
      rw [← Nat.pow_add]
      congr 1
      omega
    rw [this]
    generalize 2 ^ (8 * bs.length) = P at ih
    omega

/-- A list has as many bytes as the words read from it take. -/
theorem leBytes_length (k v : Nat) : (leBytes k v).length = k := by
  induction k generalizing v with
  | zero => rfl
  | succ k ih => simp [leBytes, ih]

/-- Storing the word read from some bytes, in the same byte order, gives the bytes. -/
theorem wordBytes_wordValue (bigEndian : Bool) (bs : List uint8_t) :
    wordBytes bigEndian bs.length (wordValue bigEndian bs) = bs := by
  cases bigEndian
  · simpa [wordBytes, wordValue] using leBytes_leValue bs
  · have h := leBytes_leValue bs.reverse
    rw [List.length_reverse] at h
    simp [wordBytes, wordValue, h]

/-- A word read from `n` bytes is below `2 ^ (8 * n)` in either byte order. -/
theorem wordValue_lt (bigEndian : Bool) (bs : List uint8_t) :
    wordValue bigEndian bs < 2 ^ (8 * bs.length) := by
  cases bigEndian
  · simpa [wordValue] using leValue_lt bs
  · have h := leValue_lt bs.reverse
    rw [List.length_reverse] at h
    simpa [wordValue] using h

/-- Cutting a list of `n * k` elements into `n` pieces of `k` and joining the
pieces gives the list. -/
theorem chunks_join {α : Type} (k n : Nat) (l : List α) (h : l.length = n * k) :
    (List.range n).flatMap (fun i => (l.drop (k * i)).take k) = l := by
  induction n generalizing l with
  | zero =>
    have : l = [] := List.length_eq_zero.mp (by simpa using h)
    simp [this]
  | succ n ih =>
    rw [List.range_succ_eq_map, List.flatMap_cons, List.flatMap_map]
    have hd : (l.drop k).length = n * k := by
      rw [List.length_drop, h, Nat.succ_mul]
      omega
    have := ih (l.drop k) hd
    simp only [List.drop_drop] at this
    simp only [Nat.mul_zero, List.drop_zero, Function.comp_def, Nat.mul_succ]
    have e : (fun i : Nat => List.take k (List.drop (k * i + k) l))
        = (fun i : Nat => List.take k (List.drop (k + k * i) l)) := by
      funext i
      rw [Nat.add_comm]
    rw [e, this, List.take_append_drop]

/-- Element `i` of a view by elements of `size` bytes has `size` bytes, when
the element lies within the address. -/
theorem ip6_elementBytes_length (a : otIp6Address) (size i : Nat)
    (h : size * i + size ≤ OT_IP6_ADDRESS_SIZE) : (a.elementBytes size i).length = size := by
  unfold otIp6Address.elementBytes
  rw [List.length_take, List.length_drop, a.m8.property]
  omega

/-- C16: the byte, 16-bit and 32-bit views of an IPv6 address are views of the
same 16 bytes. The arrays `m8`, `m16` and `m32` have 16, 8 and 4 elements, so
each view spans exactly `OT_IP6_ADDRESS_SIZE = 16` bytes; in either byte order
the bytes of element `i` of `m16` (of `m32`) are bytes `2 i, 2 i + 1` (bytes
`4 i .. 4 i + 3`) of `m8`, and these pieces joined are `m8`. -/
theorem ip6_address_views_same_bytes :
    OT_IP6_ADDRESS_SIZE = 16 ∧
    OT_IP6_ADDRESS_SIZE / sizeof_uint16_t = 8 ∧ OT_IP6_ADDRESS_SIZE / sizeof_uint32_t = 4 ∧
    (∀ (be : Bool) (a : otIp6Address),
      a.m8.val.length = 16 ∧ (a.m16 be).val.length = 8 ∧ (a.m32 be).val.length = 4) ∧
    16 * sizeof_uint8_t = OT_IP6_ADDRESS_SIZE ∧ 8 * sizeof_uint16_t = OT_IP6_ADDRESS_SIZE ∧
    4 * sizeof_uint32_t = OT_IP6_ADDRESS_SIZE ∧
    (∀ (be : Bool) (a : otIp6Address) (i : Fin (OT_IP6_ADDRESS_SIZE / sizeof_uint16_t)),
      wordBytes be sizeof_uint16_t ((a.m16 be).val.get ⟨i.val, by
        rw [(a.m16 be).property]; exact i.isLt⟩).val = a.elementBytes sizeof_uint16_t i) ∧
    (∀ (be : Bool) (a : otIp6Address) (i : Fin (OT_IP6_ADDRESS_SIZE / sizeof_uint32_t)),
      wordBytes be sizeof_uint32_t ((a.m32 be).val.get ⟨i.val, by
        rw [(a.m32 be).property]; exact i.isLt⟩).val = a.elementBytes sizeof_uint32_t i) ∧
    (∀ a : otIp6Address,
      (List.range 8).flatMap (a.elementBytes sizeof_uint16_t) = a.m8.val ∧
      (List.range 4).flatMap (a.elementBytes sizeof_uint32_t) = a.m8.val) := by
  refine ⟨rfl, rfl, rfl, fun be a => ⟨a.m8.property, (a.m16 be).property,
    (a.m32 be).property⟩, rfl, rfl, rfl, ?_, ?_, ?_⟩
  · intro be a i
    have hi : i.val < 8 := i.isLt
    have hl := ip6_elementBytes_length a sizeof_uint16_t i.val (by
      show 2 * i.val + 2 ≤ 16
      omega)
    have hlt := wordValue_lt be (a.elementBytes sizeof_uint16_t i.val)
    rw [hl] at hlt
    have hw := wordBytes_wordValue be (a.elementBytes sizeof_uint16_t i.val)
    rw [hl] at hw
    simp only [otIp6Address.m16, List.get_eq_getElem, List.getElem_ofFn]
    rw [Nat.mod_eq_of_lt (by exact hlt)]
    exact hw
  · intro be a i
    have hi : i.val < 4 := i.isLt
    have hl := ip6_elementBytes_length a sizeof_uint32_t i.val (by
      show 4 * i.val + 4 ≤ 16
      omega)
    have hlt := wordValue_lt be (a.elementBytes sizeof_uint32_t i.val)
    rw [hl] at hlt
    have hw := wordBytes_wordValue be (a.elementBytes sizeof_uint32_t i.val)
    rw [hl] at hw
    simp only [otIp6Address.m32, List.get_eq_getElem, List.getElem_ofFn]
    rw [Nat.mod_eq_of_lt (by exact hlt)]
    exact hw
  · intro a
    exact ⟨chunks_join 2 8 a.m8.val a.m8.property, chunks_join 4 4 a.m8.val a.m8.property⟩

/-- The candidate is adopted exactly when its key is greater in the
lexicographic order of weighting, partition id, data version. -/
theorem compare_eq_adopt_iff (a b : otLeaderData) :
    PartitionArbiter.compare a b = .Adopt ↔
      (a.mWeighting.val < b.mWeighting.val ∨
        (a.mWeighting.val = b.mWeighting.val ∧
          (a.mPartitionId.val < b.mPartitionId.val ∨
            (a.mPartitionId.val = b.mPartitionId.val ∧
              a.mDataVersion.val < b.mDataVersion.val)))) := by
  unfold PartitionArbiter.compare
  split_ifs <;> simp <;> omega

/-- The comparison gives `Keep` exactly when it does not give `Adopt`. -/
theorem compare_eq_keep_iff (a b : otLeaderData) :
    PartitionArbiter.compare a b = .Keep ↔ ¬ PartitionArbiter.compare a b = .Adopt := by
  cases PartitionArbiter.compare a b <;> simp

/-- C11 (counterexample): two leader-data values that differ only in the stable
data version are different, yet neither wins over the other: the comparison
keeps the local value both ways. So "for any two different leader-data values
one of them strictly wins" is false. -/
theorem leader_data_tie_without_winner :
    leaderDataTieA ≠ leaderDataTieB ∧
    PartitionArbiter.compare leaderDataTieA leaderDataTieB = .Keep ∧
    PartitionArbiter.compare leaderDataTieB leaderDataTieA = .Keep ∧
    ¬ (∀ a b : otLeaderData, a ≠ b →
        PartitionArbiter.compare a b = .Adopt ∨ PartitionArbiter.compare b a = .Adopt) := by
  refine ⟨by decide, by decide, by decide, fun h => ?_⟩
  have := h leaderDataTieA leaderDataTieB (by decide)
  revert this
  decide

/-- C11 (amended): `PartitionArbiter.compare`, ordering leader data by higher
`mWeighting`, then higher `mPartitionId`, then higher data version, gives for
all A and B exactly one of Adopt(A,B) and Keep(A,B); Adopt is irreflexive,
asymmetric and transitive, and Keep is transitive. It is a strict total order
on the key (weighting, partition id, data version): of two leader-data values
with different keys exactly one strictly wins, while two values with the same
key (they may differ in stable data version or leader router id) tie, Keep both
ways. With local weight 32 and heard weight 64 the result is Adopt, with the
weights exchanged Keep. -/
theorem partition_arbiter_strict_order_on_key :
    (∀ a b : otLeaderData,
      (PartitionArbiter.compare a b = .Adopt ∨ PartitionArbiter.compare a b = .Keep) ∧
      ¬ (PartitionArbiter.compare a b = .Adopt ∧ PartitionArbiter.compare a b = .Keep)) ∧
    (∀ a : otLeaderData, PartitionArbiter.compare a a = .Keep) ∧
    (∀ a b : otLeaderData, PartitionArbiter.compare a b = .Adopt →
      PartitionArbiter.compare b a = .Keep) ∧
    (∀ a b c : otLeaderData, PartitionArbiter.compare a b = .Adopt →
      PartitionArbiter.compare b c = .Adopt → PartitionArbiter.compare a c = .Adopt) ∧
    (∀ a b c : otLeaderData, PartitionArbiter.compare a b = .Keep →
      PartitionArbiter.compare b c = .Keep → PartitionArbiter.compare a c = .Keep) ∧
    (∀ a b : otLeaderData, a.arbiterKey ≠ b.arbiterKey →
      (PartitionArbiter.compare a b = .Adopt ∨ PartitionArbiter.compare b a = .Adopt) ∧
      ¬ (PartitionArbiter.compare a b = .Adopt ∧ PartitionArbiter.compare b a = .Adopt)) ∧
    (∀ a b : otLeaderData, a.arbiterKey = b.arbiterKey →
      PartitionArbiter.compare a b = .Keep ∧ PartitionArbiter.compare b a = .Keep) ∧
    PartitionArbiter.compare leaderDataWeight32 leaderDataWeight64 = .Adopt ∧
    PartitionArbiter.compare leaderDataWeight64 leaderDataWeight32 = .Keep := by
  refine ⟨?_, ?_, ?_, ?_, ?_, ?_, ?_, by decide, by decide⟩
  · intro a b
    cases PartitionArbiter.compare a b <;> simp
  · intro a
    rw [compare_eq_keep_iff, compare_eq_adopt_iff]
    omega
  · intro a b
    rw [compare_eq_keep_iff, compare_eq_adopt_iff, compare_eq_adopt_iff]
    omega
  · intro a b c
    rw [compare_eq_adopt_iff, compare_eq_adopt_iff, compare_eq_adopt_iff]
    omega
  · intro a b c
    rw [compare_eq_keep_iff, compare_eq_keep_iff, compare_eq_keep_iff, compare_eq_adopt_iff,
      compare_eq_adopt_iff, compare_eq_adopt_iff]
    omega
  · intro a b hk
    have hk' : ¬ (a.mWeighting.val = b.mWeighting.val ∧
        a.mPartitionId.val = b.mPartitionId.val ∧
        a.mDataVersion.val = b.mDataVersion.val) := by
      intro h
      apply hk
      simp [otLeaderData.arbiterKey, h.1, h.2.1, h.2.2]
    rw [compare_eq_adopt_iff, compare_eq_adopt_iff]
    omega
  · intro a b hk
    simp only [otLeaderData.arbiterKey, Prod.mk.injEq] at hk
    rw [compare_eq_keep_iff, compare_eq_keep_iff, compare_eq_adopt_iff, compare_eq_adopt_iff]
    omega

/-- Reading the `k` low bytes of a number gives the number modulo `2 ^ (8 * k)`. -/
theorem leValue_leBytes (k v : Nat) : leValue (leBytes k v) = v % 2 ^ (8 * k) := by
  induction k generalizing v with
  | zero => simp [leBytes, leValue, Nat.mod_one]
  | succ k ih =>
    have hp : 2 ^ (8 * (k + 1)) = 2 ^ 8 * 2 ^ (8 * k) := by
      rw [← Nat.pow_add]
      congr 1
      omega
    simp only [leBytes, leValue]
    rw [ih, hp, Nat.mod_mul]

/-- Reading a word from the `k` bytes stored for a number, in the same byte
order, gives the number modulo `2 ^ (8 * k)`. -/
theorem wordValue_wordBytes (bigEndian : Bool) (k v : Nat) :
    wordValue bigEndian (wordBytes bigEndian k v) = v % 2 ^ (8 * k) := by
  cases bigEndian
  · simpa [wordBytes, wordValue] using leValue_leBytes k v
  · simpa [wordBytes, wordValue] using leValue_leBytes k v

/-- A word is stored in as many bytes as asked for. -/
theorem wordBytes_length (bigEndian : Bool) (k v : Nat) :
    (wordBytes bigEndian k v).length = k := by
  cases bigEndian <;> simp [wordBytes, leBytes_length]

/-- The C string of a network name has at most `OT_NETWORK_NAME_MAX_SIZE` chars. -/
theorem networkName_chars_length (n : otNetworkName) :
    n.chars.length ≤ OT_NETWORK_NAME_MAX_SIZE :=
  Nat.le_trans (List.takeWhile_sublist _).length_le (List.length_take_le _ _)

/-- No char of the C string of a network name is null. -/
theorem networkName_chars_nonzero (n : otNetworkName) :
    n.chars.all (fun c => c != 0) = true := by
  rw [List.all_eq_true]
  intro c hc
  exact @List.mem_takeWhile_imp char (fun c : char => c != 0)
    (n.m8.val.take OT_NETWORK_NAME_MAX_SIZE) c hc

/-- A name whose storage is a string without nulls, of at most
`OT_NETWORK_NAME_MAX_SIZE` chars, followed by nulls has that string as its C
string. -/
theorem networkName_chars_of_padded (n : otNetworkName) (cs : List char)
    (hlen : cs.length ≤ OT_NETWORK_NAME_MAX_SIZE)
    (hnz : cs.all (fun c => c != 0) = true)
    (hn : n.m8.val = cs ++ List.replicate (OT_NETWORK_NAME_MAX_SIZE + 1 - cs.length) 0) :
    n.chars = cs := by
  have hne : ∀ c ∈ cs, (fun c : char => c != 0) c = true := List.all_eq_true.mp hnz
  unfold otNetworkName.chars
  rw [hn, List.take_append_eq_append_take, List.take_of_length_le hlen, List.take_replicate,
    List.takeWhile_append_of_pos hne, List.takeWhile_replicate]
  simp

/-- Normalising a network name keeps its C string. -/
theorem networkName_chars_normalize (n : otNetworkName) : n.normalize.chars = n.chars :=
  networkName_chars_of_padded n.normalize n.chars (networkName_chars_length n)
    (networkName_chars_nonzero n) rfl

/-- Normalising a network name twice is normalising it once. -/
theorem networkName_normalize_idem (n : otNetworkName) :
    n.normalize.normalize = n.normalize := by
  have h := networkName_chars_normalize n
  unfold otNetworkName.normalize at h ⊢
  simp only [h]

/-- The network name built from the C string of a name is its normal form. -/
theorem networkName_ofChars_chars (n : otNetworkName) :
    otNetworkName.ofChars? n.chars = some n.normalize := by
  unfold otNetworkName.ofChars?
  rw [dif_pos ⟨networkName_chars_length n, networkName_chars_nonzero n⟩]
  rfl

/-- A network name built from chars has exactly these chars as its C string and
is in normal form. -/
theorem networkName_ofChars_spec (cs : List char) (n : otNetworkName)
    (h : otNetworkName.ofChars? cs = some n) : n.chars = cs ∧ n.normalize = n := by
  unfold otNetworkName.ofChars? at h
  split at h
  next hc =>
    have hn := (Option.some.inj h).symm
    have hm : n.m8.val
        = cs ++ List.replicate (OT_NETWORK_NAME_MAX_SIZE + 1 - cs.length) 0 := by
      rw [hn]
    have hchars := networkName_chars_of_padded n cs hc.1 hc.2 hm
    refine ⟨hchars, ?_⟩
    obtain ⟨⟨l, hl⟩⟩ := n
    simp only [otNetworkName.normalize, hchars]
    congr 1
    exact Subtype.ext hm.symm
  next => exact absurd h (by simp)

/-- Reading the value bytes written for a value gives the value in wire form. -/
theorem decodeValue_encodeValue (f : otOperationalDataset.Field) (v : f.Value) :
    otOperationalDataset.decodeValue f (otOperationalDataset.encodeValue f v)
      = some (otOperationalDataset.normValue f v) := by
  have h64 : ∀ x : uint64_t, toUint64 (wordValue true (wordBytes true 8 x.val)) = x := by
    intro x
    apply Fin.ext
    show wordValue true (wordBytes true 8 x.val) % 2 ^ 64 = x.val
    rw [wordValue_wordBytes, Nat.mod_mod]
    exact Nat.mod_eq_of_lt x.isLt
  have h32 : ∀ x : uint32_t, toUint32 (wordValue true (wordBytes true 4 x.val)) = x := by
    intro x
    apply Fin.ext
    show wordValue true (wordBytes true 4 x.val) % 2 ^ 32 = x.val
    rw [wordValue_wordBytes, Nat.mod_mod]
    exact Nat.mod_eq_of_lt x.isLt
  have h16 : ∀ x : uint16_t, toUint16 (wordValue true (wordBytes true 2 x.val)) = x := by
    intro x
    apply Fin.ext
    show wordValue true (wordBytes true 2 x.val) % 2 ^ 16 = x.val
    rw [wordValue_wordBytes, Nat.mod_mod]
    exact Nat.mod_eq_of_lt x.isLt
  cases f
  case mActiveTimestamp =>
    simp only [otOperationalDataset.decodeValue, otOperationalDataset.encodeValue,
      otOperationalDataset.normValue, wordBytes_length, if_true]
    rw [h64]
  case mPendingTimestamp =>
    simp only [otOperationalDataset.decodeValue, otOperationalDataset.encodeValue,
      otOperationalDataset.normValue, wordBytes_length, if_true]
    rw [h64]
  case mMasterKey =>
    simp only [otOperationalDataset.decodeValue, otOperationalDataset.encodeValue,
      otOperationalDataset.normValue]
    rw [dif_pos v.m8.property]
    exact rfl
  case mNetworkName =>
    exact networkName_ofChars_chars v
  case mExtendedPanId =>
    simp only [otOperationalDataset.decodeValue, otOperationalDataset.encodeValue,
      otOperationalDataset.normValue]
    rw [dif_pos v.m8.property]
    exact rfl
  case mMeshLocalPrefix =>
    simp only [otOperationalDataset.decodeValue, otOperationalDataset.encodeValue,
      otOperationalDataset.normValue]
    rw [dif_pos v.m8.property]
    exact rfl
  case mDelay =>
    simp only [otOperationalDataset.decodeValue, otOperationalDataset.encodeValue,
      otOperationalDataset.normValue, wordBytes_length, if_true]
    rw [h32]
  case mPanId =>
    simp only [otOperationalDataset.decodeValue, otOperationalDataset.encodeValue,
      otOperationalDataset.normValue, wordBytes_length, if_true]
    rw [h16]
  case mChannel =>
    simp only [otOperationalDataset.decodeValue, otOperationalDataset.encodeValue,
      otOperationalDataset.normValue, wordBytes_length, if_true]
    rw [h16]
  case mPSKc =>
    simp only [otOperationalDataset.decodeValue, otOperationalDataset.encodeValue,
      otOperationalDataset.normValue]
    rw [dif_pos v.m8.property]
    exact rfl
  case mSecurityPolicy =>
    have hr := h16 v.mRotationTime
    obtain ⟨r, fl⟩ := v
    have hb : ∃ a b, wordBytes true 2 r.val = [a, b] := by
      have hl := wordBytes_length true 2 r.val
      match hw : wordBytes true 2 r.val, hl with
      | [a, b], _ => exact ⟨a, b, rfl⟩
    obtain ⟨a, b, hab⟩ := hb
    simp only [otOperationalDataset.decodeValue, otOperationalDataset.encodeValue,
      otOperationalDataset.normValue, hab, List.cons_append, List.nil_append]
    rw [← hab]
    exact congrArg some (by rw [show toUint16 (wordValue true (wordBytes true 2 r.val)) = r from hr])
  case mChannelMaskPage0 =>
    simp only [otOperationalDataset.decodeValue, otOperationalDataset.encodeValue,
      otOperationalDataset.normValue, wordBytes_length, if_true]
    rw [h32]

/-- The value bytes written for a value are within the declared maximum of the field. -/
theorem encodeValue_length_le (f : otOperationalDataset.Field) (v : f.Value) :
    (otOperationalDataset.encodeValue f v).length ≤ f.maxLength := by
  cases f
  case mNetworkName => exact networkName_chars_length v
  case mSecurityPolicy =>
    simp [otOperationalDataset.encodeValue, otOperationalDataset.Field.maxLength,
      wordBytes_length]
  all_goals
    first
    | exact Nat.le_of_eq (wordBytes_length true _ _)
    | exact Nat.le_of_eq v.m8.property

/-- The declared maximum of every field is at most 16 bytes. -/
theorem field_maxLength_le (f : otOperationalDataset.Field) : f.maxLength ≤ 16 := by
  cases f <;> decide

/-- The type byte of the TLV of a field stands for that field. -/
theorem field_ofTlvCode_tlvType (f : otOperationalDataset.Field) :
    otOperationalDataset.Field.ofTlvCode? (toUint8 f.tlvType.toNat).val = some f := by
  cases f <;> rfl

/-- A value and its wire form have the same value bytes. -/
theorem encodeValue_normValue (f : otOperationalDataset.Field) (v : f.Value) :
    otOperationalDataset.encodeValue f (otOperationalDataset.normValue f v)
      = otOperationalDataset.encodeValue f v := by
  cases f
  case mNetworkName => exact networkName_chars_normalize v
  all_goals rfl

/-- The wire form of a value in wire form is itself. -/
theorem normValue_idem (f : otOperationalDataset.Field) (v : f.Value) :
    otOperationalDataset.normValue f (otOperationalDataset.normValue f v)
      = otOperationalDataset.normValue f v := by
  cases f
  case mNetworkName => exact networkName_normalize_idem v
  all_goals rfl
/-- After setting field `f`, the fields present are `f` and those present before. -/
theorem dataset_isSet_set (d : otOperationalDataset) (f : otOperationalDataset.Field)
    (v : f.Value) (g : otOperationalDataset.Field) :
    (d.set f v).isSet g = (decide (g = f) || d.isSet g) := by
  cases f <;> cases g <;> rfl

/-- After setting field `f` to `v`, the value of `f` is `v`. -/
theorem dataset_value_set_same (d : otOperationalDataset) (f : otOperationalDataset.Field)
    (v : f.Value) : (d.set f v).value f = v := by
  cases f <;> rfl

/-- Setting field `f` leaves the value of every other field alone. -/
theorem dataset_value_set_other (d : otOperationalDataset) (f : otOperationalDataset.Field)
    (v : f.Value) (g : otOperationalDataset.Field) (h : g ≠ f) :
    (d.set f v).value g = d.value g := by
  cases f <;> cases g <;> first | rfl | exact absurd rfl h

/-- Two datasets with the same values and the same presence flags are equal. -/
theorem dataset_eq_of_parts (x y : otOperationalDataset)
    (hv : ∀ f, x.value f = y.value f) (hs : ∀ f, x.isSet f = y.isSet f) : x = y := by
  have hx : otOperationalDataset.ofParts x.value x.isSet = x := by
    cases x
    rfl
  have hy : otOperationalDataset.ofParts y.value y.isSet = y := by
    cases y
    rfl
  rw [← hx, ← hy, funext hv, funext hs]

/-- The TLV type of a dataset field has the maximum of the field as its declared
maximum, so a TLV of the field is over-long exactly when its length exceeds it. -/
theorem tlvOverlong_field (f : otOperationalDataset.Field) (n : Nat) :
    f.tlvType.maxLength? = some f.maxLength ∧
    tlvOverlong (toUint8 f.tlvType.toNat).val n = decide (f.maxLength < n) := by
  cases f <;> exact ⟨rfl, rfl⟩

/-- The decoding loop reads the TLV written for a field and goes on with the
rest of the buffer, the field set to the wire form of the value. -/
theorem decodeLoop_tlv (k : Nat) (f : otOperationalDataset.Field) (v : f.Value)
    (rest : List uint8_t) (acc : otOperationalDataset) :
    otOperationalDataset.decodeLoop (k + 1)
        (toUint8 f.tlvType.toNat :: toUint8 (otOperationalDataset.encodeValue f v).length ::
          (otOperationalDataset.encodeValue f v ++ rest)) acc
      = otOperationalDataset.decodeLoop k rest
          (acc.set f (otOperationalDataset.normValue f v)) := by
  have hle := encodeValue_length_le f v
  have hmax := field_maxLength_le f
  have hl : (toUint8 (otOperationalDataset.encodeValue f v).length).val
      = (otOperationalDataset.encodeValue f v).length := by
    show (otOperationalDataset.encodeValue f v).length % 2 ^ 8 = _
    apply Nat.mod_eq_of_lt
    show _ < 256
    omega
  rw [otOperationalDataset.decodeLoop]
  rw [hl, field_ofTlvCode_tlvType, (tlvOverlong_field f _).2]
  have h1 : ¬ (otOperationalDataset.encodeValue f v ++ rest).length
      < (otOperationalDataset.encodeValue f v).length := by
    rw [List.length_append]
    omega
  have h0 : decide (f.maxLength < (otOperationalDataset.encodeValue f v).length) = false :=
    decide_eq_false (Nat.not_lt.mpr hle)
  rw [h0, if_neg h1]
  simp only [Bool.false_eq_true, if_false, List.take_left' rfl, List.drop_left' rfl,
    decodeValue_encodeValue]

/-- Decoding the TLVs written for some fields of `d` sets each present one of
them to the wire form of its value. -/
theorem decodeLoop_fields (d : otOperationalDataset) (fs : List otOperationalDataset.Field)
    (k : Nat) (acc : otOperationalDataset)
    (hk : (fs.flatMap (otOperationalDataset.encodeField d)).length ≤ k) :
    otOperationalDataset.decodeLoop k (fs.flatMap (otOperationalDataset.encodeField d)) acc
      = .ok (fs.foldl (fun a f =>
          if d.isSet f then a.set f (otOperationalDataset.normValue f (d.value f)) else a)
          acc) := by
  induction fs generalizing k acc with
  | nil =>
    simp only [List.flatMap_nil, List.foldl_nil]
    rw [otOperationalDataset.decodeLoop]
  | cons f fs ih =>
    rw [List.flatMap_cons] at hk ⊢
    rw [List.foldl_cons]
    by_cases h : d.isSet f = true
    · simp only [otOperationalDataset.encodeField, h, if_true, List.cons_append,
        List.length_cons, List.length_append] at hk ⊢
      obtain ⟨k', rfl⟩ : ∃ k', k = k' + 1 := ⟨k - 1, by omega⟩
      rw [decodeLoop_tlv]
      exact ih k' _ (by omega)
    · simp only [otOperationalDataset.encodeField, h, List.nil_append, if_false,
        Bool.false_eq_true] at hk ⊢
      exact ih k acc hk

/-- The presence flags after setting the present fields of `d` among `fs`. -/
theorem foldl_set_isSet (d : otOperationalDataset) (fs : List otOperationalDataset.Field)
    (acc : otOperationalDataset) (g : otOperationalDataset.Field) :
    (fs.foldl (fun a f =>
        if d.isSet f then a.set f (otOperationalDataset.normValue f (d.value f)) else a)
        acc).isSet g
      = (acc.isSet g || (decide (g ∈ fs) && d.isSet g)) := by
  induction fs generalizing acc with
  | nil => simp
  | cons f fs ih =>
    rw [List.foldl_cons, ih]
    by_cases h : d.isSet f = true
    · rw [if_pos h, dataset_isSet_set]
      by_cases hg : g = f
      · subst hg
        simp [h]
      · simp [hg]
    · rw [if_neg h]
      by_cases hg : g = f
      · subst hg
        simp [h]
      · simp [hg]

/-- The values after setting the present fields of `d` among `fs`. -/
theorem foldl_set_value (d : otOperationalDataset) (fs : List otOperationalDataset.Field)
    (acc : otOperationalDataset) (g : otOperationalDataset.Field) :
    (fs.foldl (fun a f =>
        if d.isSet f then a.set f (otOperationalDataset.normValue f (d.value f)) else a)
        acc).value g
      = if g ∈ fs ∧ d.isSet g = true then otOperationalDataset.normValue g (d.value g)
        else acc.value g := by
  induction fs generalizing acc with
  | nil => simp
  | cons f fs ih =>
    rw [List.foldl_cons, ih]
    by_cases hg : g = f
    · subst hg
      by_cases h : d.isSet g = true
      · simp [h, dataset_value_set_same]
      · simp [h]
    · by_cases h : d.isSet f = true
      · simp [h, hg, dataset_value_set_other]
      · simp [h, hg]

/-- Decoding the encoding of a dataset gives its canonical form. -/
theorem decodeTlv_encodeTlv (d : otOperationalDataset) :
    otOperationalDataset.decodeTlv (otOperationalDataset.encodeTlv d) = .ok d.canonical := by
  unfold otOperationalDataset.decodeTlv otOperationalDataset.encodeTlv
  rw [decodeLoop_fields d _ _ _ (Nat.le_refl _)]
  congr 1
  apply dataset_eq_of_parts
  · intro g
    rw [foldl_set_value]
    have hc : d.canonical.value g
        = if d.isSet g then otOperationalDataset.normValue g (d.value g)
          else otOperationalDataset.zeroValue g := by
      cases g <;> rfl
    have hz : otOperationalDataset.zero.value g = otOperationalDataset.zeroValue g := by
      cases g <;> rfl
    rw [hc, hz]
    simp [operationalField_mem_members]
  · intro g
    rw [foldl_set_isSet]
    have hc : d.canonical.isSet g = d.isSet g := by
      cases g <;> rfl
    have hz : otOperationalDataset.zero.isSet g = false := by
      cases g <;> rfl
    rw [hc, hz]
    simp [operationalField_mem_members]

/-- A buffer with an over-long TLV does not decode: the loop fails with `Parse`
whatever it has read so far. -/
theorem decodeLoop_overlong (k : Nat) (buf : List uint8_t) (acc : otOperationalDataset)
    (h : otOperationalDataset.hasOverlongTlv k buf = true) :
    otOperationalDataset.decodeLoop k buf acc = .error .kThreadError_Parse := by
  induction k generalizing buf acc with
  | zero => simp [otOperationalDataset.hasOverlongTlv] at h
  | succ k ih =>
    match buf, h with
    | [], h => simp [otOperationalDataset.hasOverlongTlv] at h
    | [_], h => simp [otOperationalDataset.hasOverlongTlv] at h
    | t :: len :: rest, h =>
      rw [otOperationalDataset.hasOverlongTlv] at h
      rw [otOperationalDataset.decodeLoop]
      by_cases ho : tlvOverlong t.val len.val = true
      · rw [if_pos ho]
      · rw [if_neg ho]
        by_cases hlt : rest.length < len.val
        · rw [if_pos hlt]
        · rw [if_neg hlt]
          simp only [ho, Bool.false_or, Bool.and_eq_true, decide_eq_true_eq] at h
          cases hf : otOperationalDataset.Field.ofTlvCode? t.val with
          | none => exact ih _ _ h.2
          | some f =>
            simp only
            cases hv : otOperationalDataset.decodeValue f (List.take len.val rest) with
            | none => rfl
            | some v => exact ih _ _ h.2

/-- The only error of the decoding loop is `Parse`. -/
theorem decodeLoop_error (k : Nat) (buf : List uint8_t) (acc : otOperationalDataset)
    (e : ThreadError) (h : otOperationalDataset.decodeLoop k buf acc = .error e) :
    e = .kThreadError_Parse := by
  induction k generalizing buf acc with
  | zero =>
    match buf, h with
    | [], h => simp [otOperationalDataset.decodeLoop] at h
    | _ :: _, h =>
      simp only [otOperationalDataset.decodeLoop, Except.error.injEq] at h
      exact h.symm
  | succ k ih =>
    match buf, h with
    | [], h => simp [otOperationalDataset.decodeLoop] at h
    | [_], h =>
      simp only [otOperationalDataset.decodeLoop, Except.error.injEq] at h
      exact h.symm
    | t :: len :: rest, h =>
      rw [otOperationalDataset.decodeLoop] at h
      by_cases ho : tlvOverlong t.val len.val = true
      · rw [if_pos ho] at h
        exact (Except.error.inj h).symm
      · rw [if_neg ho] at h
        by_cases hlt : rest.length < len.val
        · rw [if_pos hlt] at h
          exact (Except.error.inj h).symm
        · rw [if_neg hlt] at h
          cases hf : otOperationalDataset.Field.ofTlvCode? t.val with
          | none =>
            rw [hf] at h
            exact ih _ _ h
          | some f =>
            rw [hf] at h
            simp only at h
            cases hv : otOperationalDataset.decodeValue f (List.take len.val rest) with
            | none =>
              rw [hv] at h
              exact (Except.error.inj h).symm
            | some v =>
              rw [hv] at h
              exact ih _ _ h

/-- Storing the `k` bytes of a word read from `k` bytes, most significant byte
first, gives the bytes. -/
theorem wordBytes_of_wordValue (k : Nat) (bs : List uint8_t) (h : bs.length = k) :
    wordBytes true k (wordValue true bs % 2 ^ (8 * k)) = bs := by
  have hlt := wordValue_lt true bs
  rw [h] at hlt
  rw [Nat.mod_eq_of_lt hlt, ← h]
  exact wordBytes_wordValue true bs

/-- The value bytes written for a decoded value are the bytes it was decoded
from: `encodeValue` and `decodeValue` are inverse to each other. -/
theorem encodeValue_decodeValue (f : otOperationalDataset.Field) (bs : List uint8_t)
    (v : f.Value) (h : otOperationalDataset.decodeValue f bs = some v) :
    otOperationalDataset.encodeValue f v = bs := by
  cases f
  case mNetworkName => exact (networkName_ofChars_spec bs v h).1
  case mSecurityPolicy =>
    match bs, h with
    | [a, b, c], h =>
      simp only [otOperationalDataset.decodeValue, Option.some.injEq] at h
      subst h
      have := wordBytes_of_wordValue 2 [a, b] rfl
      simp only [otOperationalDataset.encodeValue]
      rw [show (toUint16 (wordValue true [a, b])).val = wordValue true [a, b] % 2 ^ (8 * 2)
        from rfl, this]
      rfl
  case mActiveTimestamp =>
    simp only [otOperationalDataset.decodeValue] at h
    split at h
    next hl =>
      rw [← Option.some.inj h]
      exact wordBytes_of_wordValue 8 bs hl
    next => exact absurd h (by simp)
  case mPendingTimestamp =>
    simp only [otOperationalDataset.decodeValue] at h
    split at h
    next hl =>
      rw [← Option.some.inj h]
      exact wordBytes_of_wordValue 8 bs hl
    next => exact absurd h (by simp)
  case mDelay =>
    simp only [otOperationalDataset.decodeValue] at h
    split at h
    next hl =>
      rw [← Option.some.inj h]
      exact wordBytes_of_wordValue 4 bs hl
    next => exact absurd h (by simp)
  case mChannelMaskPage0 =>
    simp only [otOperationalDataset.decodeValue] at h
    split at h
    next hl =>
      rw [← Option.some.inj h]
      exact wordBytes_of_wordValue 4 bs hl
    next => exact absurd h (by simp)
  case mPanId =>
    simp only [otOperationalDataset.decodeValue] at h
    split at h
    next hl =>
      rw [← Option.some.inj h]
      exact wordBytes_of_wordValue 2 bs hl
    next => exact absurd h (by simp)
  case mChannel =>
    simp only [otOperationalDataset.decodeValue] at h
    split at h
    next hl =>
      rw [← Option.some.inj h]
      exact wordBytes_of_wordValue 2 bs hl
    next => exact absurd h (by simp)
  all_goals
    simp only [otOperationalDataset.decodeValue] at h
    split at h
    next hl =>
      rw [← Option.some.inj h]
      rfl
    next => exact absurd h (by simp)

/-- A decoded value is in wire form. -/
theorem decodeValue_norm (f : otOperationalDataset.Field) (bs : List uint8_t)
    (v : f.Value) (h : otOperationalDataset.decodeValue f bs = some v) :
    otOperationalDataset.normValue f v = v := by
  cases f
  case mNetworkName => exact (networkName_ofChars_spec bs v h).2
  all_goals rfl
/-- The canonical form of a dataset has the presence flags of the dataset. -/
theorem canonical_isSet (d : otOperationalDataset) (g : otOperationalDataset.Field) :
    d.canonical.isSet g = d.isSet g := by
  cases g <;> rfl

/-- The canonical form of a dataset holds the wire form of each present value
and zero for each absent field. -/
theorem canonical_value (d : otOperationalDataset) (g : otOperationalDataset.Field) :
    d.canonical.value g
      = if d.isSet g then otOperationalDataset.normValue g (d.value g)
        else otOperationalDataset.zeroValue g := by
  cases g <;> rfl

/-- The canonical form of a canonical form is itself. -/
theorem canonical_idem (d : otOperationalDataset) : d.canonical.canonical = d.canonical := by
  apply dataset_eq_of_parts
  · intro g
    rw [canonical_value d.canonical g, canonical_isSet, canonical_value d g]
    by_cases h : d.isSet g = true
    · simp [h, normValue_idem]
    · simp [h]
  · intro g
    rw [canonical_isSet]

/-- A dataset and its canonical form have the same encoding. -/
theorem encodeTlv_canonical (d : otOperationalDataset) :
    otOperationalDataset.encodeTlv d.canonical = otOperationalDataset.encodeTlv d := by
  unfold otOperationalDataset.encodeTlv
  congr 1
  funext f
  unfold otOperationalDataset.encodeField
  rw [canonical_isSet, canonical_value]
  by_cases h : d.isSet f = true
  · simp [h, encodeValue_normValue]
  · simp [h]

/-- A structure value and its canonical form stand for the same dataset. -/
theorem dataset_canonical (d : otOperationalDataset) : d.canonical.dataset = d.dataset := by
  funext f
  unfold otOperationalDataset.dataset
  rw [canonical_isSet, canonical_value]
  by_cases h : d.isSet f = true
  · simp [h, normValue_idem]
  · simp [h]

/-- Two structure values stand for the same dataset exactly when they have the
same fields present and the same wire form of every present value. -/
theorem dataset_eq_iff (d e : otOperationalDataset) :
    d.dataset = e.dataset ↔
      ∀ f, d.isSet f = e.isSet f ∧
        (d.isSet f = true →
          otOperationalDataset.normValue f (d.value f)
            = otOperationalDataset.normValue f (e.value f)) := by
  constructor
  · intro h f
    have hf := congrFun h f
    unfold otOperationalDataset.dataset at hf
    by_cases hd : d.isSet f = true <;> by_cases he : e.isSet f = true <;>
      simp [hd, he] at hf ⊢
    exact hf
  · intro h
    funext f
    unfold otOperationalDataset.dataset
    obtain ⟨h1, h2⟩ := h f
    by_cases hd : d.isSet f = true
    · rw [← h1, if_pos hd, if_pos hd, h2 hd]
    · rw [← h1, if_neg hd, if_neg hd]

/-- The all-zero dataset is in canonical form. -/
theorem zero_canonical : otOperationalDataset.zero.canonical = otOperationalDataset.zero := by
  apply dataset_eq_of_parts
  · intro g
    rw [canonical_value]
    cases g <;> rfl
  · intro g
    rw [canonical_isSet]

/-- Setting a field of a canonical dataset to a value in wire form gives a
canonical dataset. -/
theorem set_canonical (acc : otOperationalDataset) (f : otOperationalDataset.Field)
    (v : f.Value) (ha : acc.canonical = acc)
    (hv : otOperationalDataset.normValue f v = v) :
    (acc.set f v).canonical = acc.set f v := by
  apply dataset_eq_of_parts
  · intro g
    rw [canonical_value, dataset_isSet_set]
    by_cases hg : g = f
    · subst hg
      simp [dataset_value_set_same, hv]
    · have hacc : acc.canonical.value g = acc.value g := by rw [ha]
      rw [canonical_value] at hacc
      simp only [hg, decide_False, Bool.false_or]
      rw [dataset_value_set_other _ _ _ _ hg]
      exact hacc
  · intro g
    rw [canonical_isSet]

/-- Every dataset the decoding loop returns, started from a canonical dataset,
is canonical. -/
theorem decodeLoop_canonical (k : Nat) (buf : List uint8_t) (acc d : otOperationalDataset)
    (ha : acc.canonical = acc) (h : otOperationalDataset.decodeLoop k buf acc = .ok d) :
    d.canonical = d := by
  induction k generalizing buf acc with
  | zero =>
    match buf, h with
    | [], h =>
      simp only [otOperationalDataset.decodeLoop, Except.ok.injEq] at h
      rw [← h]
      exact ha
    | _ :: _, h => simp [otOperationalDataset.decodeLoop] at h
  | succ k ih =>
    match buf, h with
    | [], h =>
      simp only [otOperationalDataset.decodeLoop, Except.ok.injEq] at h
      rw [← h]
      exact ha
    | [_], h => simp [otOperationalDataset.decodeLoop] at h
    | t :: len :: rest, h =>
      rw [otOperationalDataset.decodeLoop] at h
      by_cases ho : tlvOverlong t.val len.val = true
      · rw [if_pos ho] at h
        exact absurd h (by simp)
      · rw [if_neg ho] at h
        by_cases hlt : rest.length < len.val
        · rw [if_pos hlt] at h
          exact absurd h (by simp)
        · rw [if_neg hlt] at h
          cases hf : otOperationalDataset.Field.ofTlvCode? t.val with
          | none =>
            rw [hf] at h
            exact ih _ _ ha h
          | some f =>
            rw [hf] at h
            simp only at h
            cases hv : otOperationalDataset.decodeValue f (List.take len.val rest) with
            | none =>
              rw [hv] at h
              exact absurd h (by simp)
            | some v =>
              rw [hv] at h
              exact ih _ _ (set_canonical acc f v ha (decodeValue_norm f _ v hv)) h

/-- A TLV whose type has a declared maximum that its length byte exceeds is
over-long. -/
theorem tlvOverlong_of_maxLength (ty : otMeshcopTlvType) (m len : Nat)
    (hm : ty.maxLength? = some m) (hlen : m < len) :
    tlvOverlong (toUint8 ty.toNat).val len = true := by
  have hc : (toUint8 ty.toNat).val = ty.toNat := by
    cases ty <;> rfl
  unfold tlvOverlong
  rw [hc, meshcopTlv_ofNat_toNat]
  simp only [hm]
  exact decide_eq_true hlen

/-- C12: TLV round trip. For every operational dataset `d`, with an arbitrary
subset of its fields present, `decodeTlv (encodeTlv d)` succeeds and returns the
dataset of `d`: the same fields present, each with the value it has in `d` (the
network name as a C string). Absent fields are omitted from the encoding, not
zero-filled; the structure returned is the canonical form of `d`, and for
every structure in canonical form, which every structure returned by
`decodeTlv` is, the round trip returns the structure itself. Decoding a buffer
that contains a TLV whose length byte exceeds the declared maximum of its field
(a field of the operational dataset, the steering data or another commissioning
sub-TLV) fails with `Parse` and leaves the store unchanged; `Parse` is the only
error, and a store is either left unchanged or replaced by the decoded dataset
as a whole. -/
theorem tlv_round_trip :
    (∀ d : otOperationalDataset,
      otOperationalDataset.decodeTlv (otOperationalDataset.encodeTlv d) = .ok d.canonical ∧
      d.canonical.dataset = d.dataset ∧
      (otOperationalDataset.decodeTlv (otOperationalDataset.encodeTlv d)).map
          otOperationalDataset.dataset = .ok d.dataset) ∧
    (∀ (f : otOperationalDataset.Field) (v : f.Value),
      otOperationalDataset.decodeValue f (otOperationalDataset.encodeValue f v)
        = some (otOperationalDataset.normValue f v)) ∧
    (∀ (f : otOperationalDataset.Field) (bs : List uint8_t) (v : f.Value),
      otOperationalDataset.decodeValue f bs = some v →
      otOperationalDataset.encodeValue f v = bs) ∧
    (∀ d e : otOperationalDataset, d.dataset = e.dataset ↔
      ∀ f, d.isSet f = e.isSet f ∧
        (d.isSet f = true →
          otOperationalDataset.normValue f (d.value f)
            = otOperationalDataset.normValue f (e.value f))) ∧
    (∀ (f : otOperationalDataset.Field) (v : f.Value), f ≠ .mNetworkName →
      otOperationalDataset.normValue f v = v) ∧
    (∀ n m : otNetworkName,
      otOperationalDataset.normValue .mNetworkName n = n.normalize ∧
      (n.normalize = m.normalize ↔ n.chars = m.chars)) ∧
    (∀ (buf : List uint8_t) (d : otOperationalDataset),
      otOperationalDataset.decodeTlv buf = .ok d →
      d.canonical = d ∧
      otOperationalDataset.decodeTlv (otOperationalDataset.encodeTlv d) = .ok d) ∧
    (∀ d : otOperationalDataset, d.canonical = d →
      otOperationalDataset.decodeTlv (otOperationalDataset.encodeTlv d) = .ok d) ∧
    (∀ (d : otOperationalDataset) (f : otOperationalDataset.Field), d.isSet f = false →
      otOperationalDataset.encodeField d f = []) ∧
    (∀ (d : otOperationalDataset) (f : otOperationalDataset.Field), d.isSet f = true →
      otOperationalDataset.encodeField d f
        = toUint8 f.tlvType.toNat ::
            toUint8 (otOperationalDataset.encodeValue f (d.value f)).length ::
            otOperationalDataset.encodeValue f (d.value f) ∧
      (otOperationalDataset.encodeValue f (d.value f)).length ≤ f.maxLength) ∧
    (∀ ty : otMeshcopTlvType, ty.maxLength?.isSome = true ↔ ty ∈ otMeshcopTlvType.specKeys) ∧
    (∀ f : otOperationalDataset.Field, f.tlvType.maxLength? = some f.maxLength) ∧
    (∀ (ty : otMeshcopTlvType) (m fuel : Nat) (len : uint8_t) (rest : List uint8_t),
      ty.maxLength? = some m → m < len.val →
      otOperationalDataset.hasOverlongTlv (fuel + 1) (toUint8 ty.toNat :: len :: rest)
        = true) ∧
    (∀ (buf : List uint8_t) (store : otOperationalDataset),
      otOperationalDataset.hasOverlongTlv buf.length buf = true →
      otOperationalDataset.decodeTlv buf = .error .kThreadError_Parse ∧
      otOperationalDataset.storeTlv store buf = (.kThreadError_Parse, store)) ∧
    (∀ (buf : List uint8_t) (store : otOperationalDataset),
      (otOperationalDataset.decodeTlv buf = .error .kThreadError_Parse ∧
        otOperationalDataset.storeTlv store buf = (.kThreadError_Parse, store)) ∨
      (∃ d, otOperationalDataset.decodeTlv buf = .ok d ∧ d.canonical = d ∧
        otOperationalDataset.storeTlv store buf = (.kThreadError_None, d))) ∧
    otOperationalDataset.decodeTlv [1, 2, 0xfa, 0xce, 0, 2, 0, 11]
      = .ok otOperationalDataset.panIdAndChannel ∧
    otOperationalDataset.storeTlv otOperationalDataset.panIdAndChannel
        [1, 2, 0x12, 0x34, 0, 3, 0, 11, 0]
      = (.kThreadError_Parse, otOperationalDataset.panIdAndChannel) ∧
    otOperationalDataset.decodeTlv ([8, 17] ++ List.replicate 17 0)
      = .error .kThreadError_Parse ∧
    otOperationalDataset.decodeTlv [9, 3, 0, 0, 0] = .error .kThreadError_Parse := by
  have hcan : ∀ (buf : List uint8_t) (d : otOperationalDataset),
      otOperationalDataset.decodeTlv buf = .ok d → d.canonical = d :=
    fun buf d h => decodeLoop_canonical _ _ _ d zero_canonical h
  refine ⟨fun d => ⟨decodeTlv_encodeTlv d, dataset_canonical d, ?_⟩, decodeValue_encodeValue,
    encodeValue_decodeValue, dataset_eq_iff, ?_, ?_, ?_,
    ?_, ?_, ?_, ?_, fun f => (tlvOverlong_field f 0).1, ?_, ?_, ?_, rfl, rfl, rfl, rfl⟩
  · rw [decodeTlv_encodeTlv, ← dataset_canonical d]
    rfl
  · intro f v h
    cases f
    case mNetworkName => exact absurd rfl h
    all_goals rfl
  · intro n m
    refine ⟨rfl, ?_, ?_⟩
    · intro h
      rw [← networkName_chars_normalize n, h, networkName_chars_normalize]
    · intro h
      unfold otNetworkName.normalize
      simp only [h]
  · intro buf d h
    have hc := hcan buf d h
    refine ⟨hc, ?_⟩
    have := decodeTlv_encodeTlv d
    rwa [hc] at this
  · intro d h
    have := decodeTlv_encodeTlv d
    rwa [h] at this
  · intro d f h
    simp [otOperationalDataset.encodeField, h]
  · intro d f h
    exact ⟨by simp [otOperationalDataset.encodeField, h], encodeValue_length_le f _⟩
  · intro ty
    cases ty <;> decide
  · intro ty m fuel len rest hm hlen
    rw [otOperationalDataset.hasOverlongTlv, tlvOverlong_of_maxLength ty m len.val hm hlen]
    rfl
  · intro buf store h
    have hd : otOperationalDataset.decodeTlv buf = .error .kThreadError_Parse :=
      decodeLoop_overlong _ _ _ h
    refine ⟨hd, ?_⟩
    unfold otOperationalDataset.storeTlv
    rw [hd]
  · intro buf store
    cases hd : otOperationalDataset.decodeTlv buf with
    | error e =>
      have he : e = .kThreadError_Parse := decodeLoop_error _ _ _ e hd
      subst he
      left
      refine ⟨rfl, ?_⟩
      unfold otOperationalDataset.storeTlv
      rw [hd]
    | ok d =>
      right
      refine ⟨d, rfl, hcan buf d hd, ?_⟩
      unfold otOperationalDataset.storeTlv
      rw [hd]

end OpenThread
